import Mathlib

/-!
Verification of the Moneybags spreadsheet-import pipeline
(src/import_logic.py, with its storage collaborators from
src/database_manager.py) against its natural-language specification.

Python strings are embedded as Lean `String` / `List Char`; Excel cell
values as `Option String` (a `none` cell is Python `None`); fallible
Python code that raises `ValueError` is embedded as `Except`.
The Python expression `int(float(part))` is embedded by exact decimal
arithmetic (parse the numeral, truncate toward zero); IEEE-754 rounding
of `float` is not modelled, which is exact for the decimal numerals of
the magnitudes this application handles.
-/

set_option maxRecDepth 20000

deriving instance DecidableEq for Except

namespace Moneybags

/-! ### Character-level utilities mirroring the Python string operations -/

/-- Whitespace characters recognised by Python `str.strip`. -/
def isSpaceChar (c : Char) : Bool :=
  c == ' ' || c == '\t' || c == '\n' || c == '\r' || c == '\x0b' || c == '\x0c'

/-- Python `str.strip`: drop whitespace from both ends. -/
def trimChars (l : List Char) : List Char :=
  ((l.dropWhile isSpaceChar).reverse.dropWhile isSpaceChar).reverse

/-- Python `str.split(sep)` for a one-character separator:
`split "" = [""]`, `split "+" = ["", ""]`, `split "a+b" = ["a", "b"]`. -/
def splitOnChar (sep : Char) : List Char → List (List Char)
  | [] => [[]]
  | c :: rest =>
    if c == sep then [] :: splitOnChar sep rest
    else
      match splitOnChar sep rest with
      | [] => [[c]]
      | h :: t => (c :: h) :: t

/-- Python substring test `pat in s`. -/
def containsSub (pat : List Char) : List Char → Bool
  | [] => pat.isEmpty
  | c :: rest => pat.isPrefixOf (c :: rest) || containsSub pat rest

/-! ### Decimal numerals, embedding Python `int(float(part))` -/

/-- ASCII digit test (the digits Python numeral parsing consumes). -/
def isDigitChar (c : Char) : Bool := 48 ≤ c.toNat && c.toNat ≤ 57

/-- Numeric value of a decimal digit character. -/
def digitVal (c : Char) : Nat := c.toNat - 48

/-- Value of a digit string, most significant digit first. -/
def digitsVal : List Char → Nat
  | [] => 0
  | c :: rest => digitVal c * 10 ^ rest.length + digitsVal rest

/-- The syntactic pieces of a decimal numeral accepted by Python `float`:
optional sign, integer digits, optional fractional digits, optional
exponent.  `mantissa` is the whole digit string (integer and fractional
digits concatenated) read as one natural number, `fracLen` the number of
fractional digits, `exp` the exponent. -/
structure DecimalParts where
  neg : Bool
  mantissa : Nat
  fracLen : Nat
  exp : Int
deriving DecidableEq

/-- Parse the optional exponent suffix of a decimal numeral. -/
def parseExponent (l : List Char) : Option Int :=
  match l with
  | [] => some 0
  | e :: r =>
    if e == 'e' || e == 'E' then
      let se : Int × List Char :=
        match r with
        | '+' :: rr => (1, rr)
        | '-' :: rr => (-1, rr)
        | rr => (1, rr)
      let ds := se.2.takeWhile isDigitChar
      let rest := se.2.dropWhile isDigitChar
      if ds.isEmpty || !rest.isEmpty then none
      else some (se.1 * (digitsVal ds : Int))
    else none

/-- Parse a decimal numeral of the form accepted by Python `float`
(sign, digits, optional point, optional digits, optional exponent). -/
def parseDecimalParts (l : List Char) : Option DecimalParts :=
  let sl : Bool × List Char :=
    match l with
    | '+' :: r => (false, r)
    | '-' :: r => (true, r)
    | r => (false, r)
  let ipart := sl.2.takeWhile isDigitChar
  let r1 := sl.2.dropWhile isDigitChar
  let fr : List Char × List Char :=
    match r1 with
    | '.' :: rr => (rr.takeWhile isDigitChar, rr.dropWhile isDigitChar)
    | rr => ([], rr)
  if ipart.isEmpty && fr.1.isEmpty then none
  else
    match parseExponent fr.2 with
    | none => none
    | some e =>
      some { neg := sl.1, mantissa := digitsVal (ipart ++ fr.1),
             fracLen := fr.1.length, exp := e }

/-- Magnitude of a decimal numeral truncated to an integer
(`mantissa / 10 ^ fracLen * 10 ^ exp`, rounded toward zero;
natural-number division floors, which is truncation for a magnitude). -/
def truncMagnitude (m : Nat) (fracLen : Nat) (e : Int) : Nat :=
  if 0 ≤ e then m * 10 ^ e.toNat / 10 ^ fracLen
  else m / 10 ^ (fracLen + (-e).toNat)

/-- Embedding of Python `int(float(part))`: parse the numeral and
truncate toward zero; `none` when `float` would raise `ValueError`. -/
def pyIntOfDecimal (l : List Char) : Option Int :=
  match parseDecimalParts l with
  | none => none
  | some p =>
    some (if p.neg then -(truncMagnitude p.mantissa p.fracLen p.exp : Int)
          else (truncMagnitude p.mantissa p.fracLen p.exp : Int))

/-- The exact rational value a decimal numeral denotes (the value of the
written addend, before any truncation).  Used only to state spec-side
sum properties; the code itself never computes this. -/
def decimalValue (l : List Char) : Option ℚ :=
  match parseDecimalParts l with
  | none => none
  | some p =>
    some ((if p.neg then (-1 : ℚ) else 1) *
          ((p.mantissa : ℚ) / (10 : ℚ) ^ p.fracLen * (10 : ℚ) ^ p.exp))

/-! ### The formula evaluator `_extract_amounts_from_formula` -/

/-- The `ValueError`s `_extract_amounts_from_formula` can raise, keyed by
their distinct message shapes (each message carries the row and column). -/
inductive FormulaError where
  | complexFormula (rowNum : Nat) (colName : String) (token : String)
  | onlyAddition (rowNum : Nat) (colName : String)
  | negativeValue (rowNum : Nat) (colName : String) (value : Int)
  | invalidNumber (rowNum : Nat) (colName : String) (part : String)
deriving DecidableEq

/-- The forbidden tokens that name a spreadsheet function in the error. -/
def functionTokens : List String := ["IF", "SUM", "AVERAGE", "COUNT", "MIN", "MAX"]

/-- The full forbidden list, in the exact order the source scans it. -/
def forbiddenTokens : List String :=
  ["IF", "SUM", "AVERAGE", "COUNT", "MIN", "MAX", "*", "/", "-"]

/-- The forbidden-token scan of `_extract_amounts_from_formula`:
first token (in list order) found as a substring decides the error;
the minus sign is deliberately passed over. -/
def checkForbidden (cs : List Char) (rowNum : Nat) (colName : String) :
    List String → Except FormulaError Unit
  | [] => Except.ok ()
  | tok :: rest =>
    if containsSub tok.data cs then
      if functionTokens.contains tok then
        Except.error (FormulaError.complexFormula rowNum colName tok)
      else if tok == "-" then checkForbidden cs rowNum colName rest
      else Except.error (FormulaError.onlyAddition rowNum colName)
    else checkForbidden cs rowNum colName rest

/-- The per-segment loop of `_extract_amounts_from_formula`: strip each
segment, skip empty ones, parse via `int(float(part))`, reject negative
values, collect in order. -/
def parseSegments (rowNum : Nat) (colName : String) :
    List (List Char) → Except FormulaError (List Int)
  | [] => Except.ok []
  | seg :: rest =>
    let p := trimChars seg
    if p.isEmpty then parseSegments rowNum colName rest
    else
      match pyIntOfDecimal p with
      | none => Except.error (FormulaError.invalidNumber rowNum colName (String.mk p))
      | some v =>
        if v < 0 then Except.error (FormulaError.negativeValue rowNum colName v)
        else
          match parseSegments rowNum colName rest with
          | Except.error e => Except.error e
          | Except.ok tail => Except.ok (v :: tail)

/-- Strip one leading `=` (Python: `formula_str[1:]` when it starts with `=`). -/
def stripEquals (l : List Char) : List Char :=
  match l with
  | '=' :: rest => rest
  | _ => l

/-- Remove all parentheses (Python `replace` of both bracket characters). -/
def stripParens (l : List Char) : List Char :=
  l.filter (fun c => !(c == '(') && !(c == ')'))

/-- The literal text the forbidden-token scan and the split run on:
stripped cell text with the leading `=` and all parentheses removed. -/
def processedText (s : String) : List Char :=
  stripParens (stripEquals (trimChars s.data))

/-- Embedding of `_extract_amounts_from_formula` (src/import_logic.py).
`none` is the Python `None` cell; a numeric cell is passed as the string
Python `str` would produce for it. -/
def extract_amounts_from_formula (cellValue : Option String) (rowNum : Nat)
    (colName : String) : Except FormulaError (List Int) :=
  match cellValue with
  | none => Except.ok []
  | some s =>
    if s == "" then Except.ok []
    else if (trimChars s.data).isEmpty then Except.ok []
    else
      match checkForbidden (processedText s) rowNum colName forbiddenTokens with
      | Except.error e => Except.error e
      | Except.ok _ => parseSegments rowNum colName (splitOnChar '+' (processedText s))

/-! ### Worksheets and the two physical layouts -/

/-- A worksheet: partial map from (row, column) to a cell value.  A cell
that Python would see as `None` is `none`; numeric cells are given as
the string Python `str` would print for them. -/
def Sheet := Nat → Nat → Option String

/-- Build a sheet from an explicit cell list (first match wins). -/
def sheetOfCells (cells : List (Nat × Nat × String)) : Sheet :=
  fun r c => (cells.find? (fun x => x.1 == r && x.2.1 == c)).map (fun x => x.2.2)

/-- Python truthiness of a cell value (`if cell.value:` for a string cell). -/
def truthy (v : Option String) : Bool :=
  match v with
  | none => false
  | some s => !(s == "")

/-- Python `cell.value and pat in str(cell.value)`. -/
def cellContains (v : Option String) (pat : String) : Bool :=
  match v with
  | none => false
  | some s => !(s == "") && containsSub pat.data s.data

/-- `openpyxl.utils.get_column_letter` for the columns this file uses. -/
def get_column_letter (n : Nat) : String :=
  String.mk [Char.ofNat (64 + n)]

/-- Python `range(1, 100)`: the rows both scan loops visit. -/
def rowRange : List Nat := List.range' 1 99

/-- Python `range(start, stop, step)` for a positive step. -/
def pyRange (start stop step : Nat) : List Nat :=
  List.range' start ((stop - start + step - 1) / step) step

/-- Month-column table of `_parse_hovedark_format`
(columns F..Q = 6..17 mapped to months 1..12, in insertion order). -/
def monthColumnsHovedark : List (Nat × Nat) :=
  [(6, 1), (7, 2), (8, 3), (9, 4), (10, 5), (11, 6),
   (12, 7), (13, 8), (14, 9), (15, 10), (16, 11), (17, 12)]

/-- Month-column table of `_parse_original_format`
(columns C..N = 3..14 mapped to months 1..12). -/
def monthColumnsOriginal : List (Nat × Nat) :=
  [(3, 1), (4, 2), (5, 3), (6, 4), (7, 5), (8, 6),
   (9, 7), (10, 8), (11, 9), (12, 10), (13, 11), (14, 12)]

/-- A parsed category block (the transient dict the parsers emit). -/
structure ParsedCategory where
  name : String
  type : String
  budget : List (Nat × Int)
  actuals : List (Nat × List Int)
deriving DecidableEq

/-- The parser result dict. -/
structure ParsedData where
  year : Int
  sheet_categories : List ParsedCategory
deriving DecidableEq

/-- The `ValueError`s the scan layer can raise: a wrapped formula error
(Python re-raises with the category name prefixed), the two
missing-section-marker errors and the no-categories error. -/
inductive ScanError where
  | categoryFormula (categoryName : String) (e : FormulaError)
  | noUtgifterMarker
  | noInntekterMarker
  | noCategories
deriving DecidableEq

/-- The single pass of `_parse_hovedark_format` that records the last row
in 1..99 whose column C contains the Utgifter marker and the last row
whose column C contains the Inntekter marker (the source never breaks,
so later occurrences overwrite earlier ones; a cell holding both counts
only as Utgifter because of the `elif`). -/
def findSectionRowsHovedark (sheet : Sheet) : Option Nat × Option Nat :=
  rowRange.foldl
    (fun acc row =>
      match sheet row 3 with
      | none => acc
      | some s =>
        if s == "" then acc
        else if containsSub "Utgifter".data s.data then (some row, acc.2)
        else if containsSub "Inntekter".data s.data then (acc.1, some row)
        else acc)
    (none, none)

/-- The budget-row loop of `_parse_hovedark_format` over the remaining
month columns: per column, a truthy cell is run through the formula
evaluator; an evaluator error is caught and the cell skipped; an empty
amount list is skipped; a zero sum is skipped; otherwise the summed
amount is recorded for the month. -/
def extractBudgetHovedarkGo (sheet : Sheet) (row : Nat) (acc : List (Nat × Int)) :
    List (Nat × Nat) → List (Nat × Int)
  | [] => acc
  | cm :: cols =>
    if truthy (sheet row cm.1) then
      match extract_amounts_from_formula (sheet row cm.1) row (get_column_letter cm.1) with
      | Except.error _ => extractBudgetHovedarkGo sheet row acc cols
      | Except.ok amounts =>
        if amounts.isEmpty then extractBudgetHovedarkGo sheet row acc cols
        else if amounts.sum == 0 then extractBudgetHovedarkGo sheet row acc cols
        else extractBudgetHovedarkGo sheet row (acc ++ [(cm.2, amounts.sum)]) cols
    else extractBudgetHovedarkGo sheet row acc cols

/-- Budget-row extraction of `_parse_hovedark_format`. -/
def extractBudgetHovedark (sheet : Sheet) (row : Nat) : List (Nat × Int) :=
  extractBudgetHovedarkGo sheet row [] monthColumnsHovedark

/-- The budget-row loop of `_parse_original_format`: identical to the
Hovedark variant except that a zero sum is still recorded. -/
def extractBudgetOriginalGo (sheet : Sheet) (row : Nat) (acc : List (Nat × Int)) :
    List (Nat × Nat) → List (Nat × Int)
  | [] => acc
  | cm :: cols =>
    if truthy (sheet row cm.1) then
      match extract_amounts_from_formula (sheet row cm.1) row (get_column_letter cm.1) with
      | Except.error _ => extractBudgetOriginalGo sheet row acc cols
      | Except.ok amounts =>
        if amounts.isEmpty then extractBudgetOriginalGo sheet row acc cols
        else extractBudgetOriginalGo sheet row (acc ++ [(cm.2, amounts.sum)]) cols
    else extractBudgetOriginalGo sheet row acc cols

/-- Budget-row extraction of `_parse_original_format`. -/
def extractBudgetOriginal (sheet : Sheet) (row : Nat) : List (Nat × Int) :=
  extractBudgetOriginalGo sheet row [] monthColumnsOriginal

/-- The actuals-row loop shared by both parsers: per month column, a
truthy cell is run through the formula evaluator; an evaluator error
propagates (the caller wraps it with the category name); a non-empty
amount list is recorded whole for the month. -/
def extractActualsGo (sheet : Sheet) (row : Nat) (acc : List (Nat × List Int)) :
    List (Nat × Nat) → Except FormulaError (List (Nat × List Int))
  | [] => Except.ok acc
  | cm :: cols =>
    if truthy (sheet row cm.1) then
      match extract_amounts_from_formula (sheet row cm.1) row (get_column_letter cm.1) with
      | Except.error e => Except.error e
      | Except.ok amounts =>
        if amounts.isEmpty then extractActualsGo sheet row acc cols
        else extractActualsGo sheet row (acc ++ [(cm.2, amounts)]) cols
    else extractActualsGo sheet row acc cols

/-- Actuals-row extraction over a month-column table. -/
def extractActualsRow (sheet : Sheet) (cols : List (Nat × Nat)) (row : Nat) :
    Except FormulaError (List (Nat × List Int)) :=
  extractActualsGo sheet row [] cols

/-- One iteration of the category scan loop of `_parse_hovedark_format`
for a given row: anchor test (name in column C, the budget label in
column D), total-row skip, section classification, budget and actuals
extraction, sparse-category drop.  Returns `ok none` when the row
contributes no category. -/
def hovedarkProcessRow (sheet : Sheet) (utgRow innRow row : Nat) :
    Except ScanError (Option ParsedCategory) :=
  let colC := sheet row 3
  let colD := sheet row 4
  if !truthy colC || !(colD == some "Budsjett") then Except.ok none
  else
    match colC with
    | none => Except.ok none
    | some rawName =>
      let categoryName := String.mk (trimChars rawName.data)
      if containsSub "Total".data categoryName.data ||
         containsSub "Totale".data categoryName.data then Except.ok none
      else
        let ty : Option String :=
          if utgRow < row ∧ (row < innRow ∨ innRow < utgRow) then some "expenses"
          else if innRow < row then some "income"
          else none
        match ty with
        | none => Except.ok none
        | some categoryType =>
          let budget := extractBudgetHovedark sheet row
          match extractActualsRow sheet monthColumnsHovedark (row + 1) with
          | Except.error e => Except.error (ScanError.categoryFormula categoryName e)
          | Except.ok actuals =>
            if budget.isEmpty && actuals.isEmpty then Except.ok none
            else Except.ok (some { name := categoryName, type := categoryType,
                                   budget := budget, actuals := actuals })

/-- The category scan loop of `_parse_hovedark_format` over a row list:
the first erroring row aborts, contributed categories keep row order. -/
def hovedarkScan (sheet : Sheet) (utgRow innRow : Nat) :
    List Nat → Except ScanError (List ParsedCategory)
  | [] => Except.ok []
  | row :: rest =>
    match hovedarkProcessRow sheet utgRow innRow row with
    | Except.error e => Except.error e
    | Except.ok none => hovedarkScan sheet utgRow innRow rest
    | Except.ok (some c) =>
      match hovedarkScan sheet utgRow innRow rest with
      | Except.error e => Except.error e
      | Except.ok cs => Except.ok (c :: cs)

/-- Embedding of `_parse_hovedark_format` (src/import_logic.py). -/
def parse_hovedark_format (sheet : Sheet) (year : Int) : Except ScanError ParsedData :=
  match findSectionRowsHovedark sheet with
  | (none, _) => Except.error ScanError.noUtgifterMarker
  | (some _, none) => Except.error ScanError.noInntekterMarker
  | (some utgRow, some innRow) =>
    match hovedarkScan sheet utgRow innRow rowRange with
    | Except.error e => Except.error e
    | Except.ok cats =>
      if cats.isEmpty then Except.error ScanError.noCategories
      else Except.ok { year := year, sheet_categories := cats }

/-- The row labels `_parse_original_format` skips when they appear as a
category name (compared against the raw cell value, before stripping). -/
def rowLabels : List String :=
  ["Inntekter", "Utgifter", "Balanse", "Budsjett", "Resultat", "Differanse"]

/-- First row in 1..99 whose column B contains the Utgifter marker
(the original-format search breaks at the first hit). -/
def findUtgifterOriginal (sheet : Sheet) : Option Nat :=
  rowRange.find? (fun row => cellContains (sheet row 2) "Utgifter")

/-- One iteration of either category loop of `_parse_original_format`:
name in column B, label-row skip, budget in row N+1, actuals in row N+2,
sparse-category drop.  The category type is fixed by which loop runs. -/
def originalProcessRow (sheet : Sheet) (categoryType : String) (row : Nat) :
    Except ScanError (Option ParsedCategory) :=
  match sheet row 2 with
  | none => Except.ok none
  | some rawName =>
    if rawName == "" || rowLabels.contains rawName then Except.ok none
    else
      let categoryName := String.mk (trimChars rawName.data)
      let budget := extractBudgetOriginal sheet (row + 1)
      match extractActualsRow sheet monthColumnsOriginal (row + 2) with
      | Except.error e => Except.error (ScanError.categoryFormula categoryName e)
      | Except.ok actuals =>
        if budget.isEmpty && actuals.isEmpty then Except.ok none
        else Except.ok (some { name := categoryName, type := categoryType,
                               budget := budget, actuals := actuals })

/-- A category loop of `_parse_original_format` over its row list. -/
def originalScan (sheet : Sheet) (categoryType : String) :
    List Nat → Except ScanError (List ParsedCategory)
  | [] => Except.ok []
  | row :: rest =>
    match originalProcessRow sheet categoryType row with
    | Except.error e => Except.error e
    | Except.ok none => originalScan sheet categoryType rest
    | Except.ok (some c) =>
      match originalScan sheet categoryType rest with
      | Except.error e => Except.error e
      | Except.ok cs => Except.ok (c :: cs)

/-- Embedding of `_parse_original_format` (src/import_logic.py): income
categories at rows 8, 12, ... below the Utgifter marker (4-row blocks),
expense categories from the marker row + 1 in 3-row blocks up to row 60. -/
def parse_original_format (sheet : Sheet) (year : Int) : Except ScanError ParsedData :=
  match findUtgifterOriginal sheet with
  | none => Except.error ScanError.noUtgifterMarker
  | some utgRow =>
    match originalScan sheet "income" (pyRange 8 utgRow 4) with
    | Except.error e => Except.error e
    | Except.ok incomeCats =>
      match originalScan sheet "expenses" (pyRange (utgRow + 1) 60 3) with
      | Except.error e => Except.error e
      | Except.ok expenseCats =>
        let cats := incomeCats ++ expenseCats
        if cats.isEmpty then Except.error ScanError.noCategories
        else Except.ok { year := year, sheet_categories := cats }

/-- A workbook: the sheet named Hovedark when present, and the active
sheet (`wb.active`). -/
structure Workbook where
  hovedark : Option Sheet
  active : Sheet

/-- `utils.validate_year`: plausible calendar year. -/
def validate_year (year : Int) : Bool := 1900 ≤ year && year ≤ 2100

/-- The errors of `parse_excel_file`: an invalid year or a scan error. -/
inductive ParseFileError where
  | invalidYear (year : Int)
  | scan (e : ScanError)
deriving DecidableEq

/-- The format probe of `parse_excel_file`: some row in 1..99 of the
Hovedark sheet has the budget label in column D. -/
def isNewFormat (sheet : Sheet) : Bool :=
  rowRange.any (fun row => sheet row 4 == some "Budsjett")

/-- Embedding of `parse_excel_file` (src/import_logic.py): validate the
year, then dispatch on the presence of a Hovedark sheet and the format
probe.  Loading the workbook from disk is outside the model. -/
def parse_excel_file (wb : Workbook) (year : Int) : Except ParseFileError ParsedData :=
  if !validate_year year then Except.error (ParseFileError.invalidYear year)
  else
    match wb.hovedark with
    | some sheet =>
      if isNewFormat sheet then
        match parse_hovedark_format sheet year with
        | Except.error e => Except.error (ParseFileError.scan e)
        | Except.ok pd => Except.ok pd
      else
        match parse_original_format wb.active year with
        | Except.error e => Except.error (ParseFileError.scan e)
        | Except.ok pd => Except.ok pd
    | none =>
      match parse_original_format wb.active year with
      | Except.error e => Except.error (ParseFileError.scan e)
      | Except.ok pd => Except.ok pd

/-! ### The storage collaborator (src/database_manager.py, src/database_model.py) -/

/-- A row of moneybags_categories. -/
structure Category where
  id : String
  name : String
  type : String
deriving DecidableEq

/-- A row of moneybags_payees. -/
structure Payee where
  id : String
  name : String
  type : String
  created_at : String
deriving DecidableEq

/-- A row of moneybags_budget_templates. -/
structure BudgetTemplate where
  id : String
  year : Int
  category_id : String
  created_at : String
deriving DecidableEq

/-- A row of moneybags_budget_entries. -/
structure BudgetEntry where
  id : String
  category_id : String
  year : Int
  month : Nat
  amount : Int
  comment : Option String
  created_at : String
  updated_at : String
deriving DecidableEq

/-- A row of moneybags_transactions. -/
structure Transaction where
  id : String
  category_id : String
  payee_id : String
  date : String
  amount : Int
  comment : Option String
  created_at : String
  updated_at : String
deriving DecidableEq

/-- The persistent store, with row order the insertion order, plus a
counter supplying the fresh ids `utils.generate_uid` would produce. -/
structure DB where
  categories : List Category
  payees : List Payee
  budget_templates : List BudgetTemplate
  budget_entries : List BudgetEntry
  transactions : List Transaction
  next_uid : Nat
deriving DecidableEq

/-- `utils.generate_uid`, embedded as a deterministic fresh-id supply. -/
def generate_uid (db : DB) : String × DB :=
  ("uid" ++ toString db.next_uid, { db with next_uid := db.next_uid + 1 })

/-- `database_manager.get_category_by_id`. -/
def get_category_by_id (db : DB) (categoryId : String) : Option Category :=
  db.categories.find? (fun c => c.id == categoryId)

/-- `database_manager.get_budget_entry`: row at (category, year, month). -/
def get_budget_entry (db : DB) (categoryId : String) (year : Int) (month : Nat) :
    Option BudgetEntry :=
  db.budget_entries.find?
    (fun b => b.category_id == categoryId && b.year == year && b.month == month)

/-- `database_manager.get_payee_by_name`: exact name match. -/
def get_payee_by_name (db : DB) (name : String) : Option Payee :=
  db.payees.find? (fun p => p.name == name)

/-- `database_manager.create_payee`. -/
def create_payee (db : DB) (p : Payee) : DB :=
  { db with payees := db.payees ++ [p] }

/-- `database_manager.budget_template_exists`. -/
def budget_template_exists (db : DB) (year : Int) (categoryId : String) : Bool :=
  db.budget_templates.any (fun t => t.year == year && t.category_id == categoryId)

/-- `database_manager.create_budget_template`. -/
def create_budget_template (db : DB) (t : BudgetTemplate) : DB :=
  { db with budget_templates := db.budget_templates ++ [t] }

/-- `database_manager.create_transaction`. -/
def create_transaction (db : DB) (t : Transaction) : DB :=
  { db with transactions := db.transactions ++ [t] }

/-- Replace the first list element satisfying `q` by its image under `f`
(PeeWee `get` followed by `save` updates the one fetched row). -/
def updateFirstMatching (q : BudgetEntry → Bool) (f : BudgetEntry → BudgetEntry) :
    List BudgetEntry → List BudgetEntry
  | [] => []
  | b :: rest => if q b then f b :: rest else b :: updateFirstMatching q f rest

/-- Key match used by the budget-entry upsert. -/
def matchBudgetKey (categoryId : String) (year : Int) (month : Nat)
    (b : BudgetEntry) : Bool :=
  b.category_id == categoryId && b.year == year && b.month == month

/-- `database_manager.create_or_update_budget_entry`: look up the row at
(category, year, month); if present update its amount, comment and
updated_at, otherwise insert the new row. -/
def create_or_update_budget_entry (db : DB) (e : BudgetEntry) : DB :=
  match db.budget_entries.find? (matchBudgetKey e.category_id e.year e.month) with
  | some _ =>
    { db with budget_entries :=
        (updateFirstMatching (matchBudgetKey e.category_id e.year e.month)
          (fun b => { b with amount := e.amount, comment := e.comment,
                             updated_at := e.updated_at })
          db.budget_entries) }
  | none => { db with budget_entries := db.budget_entries ++ [e] }

/-! ### `validate_import` -/

/-- The three error shapes `validate_import` can record. -/
inductive ValidationIssue where
  | notMapped (sheetName : String)
  | mappedCategoryMissing (sheetName : String) (categoryId : String)
  | typeMismatch (sheetName : String) (sheetType : String) (dbType : String)
deriving DecidableEq

/-- The one warning shape `validate_import` can record. -/
inductive ValidationWarning where
  | overwriteBudgetEntry (categoryName : String) (year : Int) (month : Nat)
deriving DecidableEq

/-- The report `validate_import` returns. -/
structure ValidationResult where
  valid : Bool
  errors : List ValidationIssue
  warnings : List ValidationWarning
  budget_count : Nat
  transaction_count : Nat
deriving DecidableEq

/-- The per-category contribution to the report. -/
structure ValidationAcc where
  errors : List ValidationIssue
  warnings : List ValidationWarning
  budget_count : Nat
  transaction_count : Nat
deriving DecidableEq

/-- Python dict lookup in the caller-supplied name-to-id mapping
(keys are unique in a dict; the embedding takes the first match). -/
def lookupMapping (mapping : List (String × String)) (name : String) : Option String :=
  (mapping.find? (fun p => p.1 == name)).map (fun p => p.2)

/-- One iteration of the category loop of `validate_import`: the three
checks in source order, each appending one error and skipping the rest
of the iteration (`continue`); a surviving category contributes its
duplicate-entry warnings and its budget and transaction counts. -/
def validateCategoryStep (db : DB) (year : Int) (mapping : List (String × String))
    (cat : ParsedCategory) : ValidationAcc :=
  match lookupMapping mapping cat.name with
  | none => { errors := [ValidationIssue.notMapped cat.name],
              warnings := [], budget_count := 0, transaction_count := 0 }
  | some categoryId =>
    match get_category_by_id db categoryId with
    | none => { errors := [ValidationIssue.mappedCategoryMissing cat.name categoryId],
                warnings := [], budget_count := 0, transaction_count := 0 }
    | some category =>
      if !(category.type == cat.type) then
        { errors := [ValidationIssue.typeMismatch cat.name cat.type category.type],
          warnings := [], budget_count := 0, transaction_count := 0 }
      else
        { errors := [],
          warnings := cat.budget.filterMap (fun bm =>
            match get_budget_entry db categoryId year bm.1 with
            | some _ => some (ValidationWarning.overwriteBudgetEntry category.name year bm.1)
            | none => none),
          budget_count := cat.budget.length,
          transaction_count := (cat.actuals.map (fun a => a.2.length)).sum }

/-- Embedding of `validate_import` (src/import_logic.py).  The source
only reads from storage, so the embedding is a pure function of `db`. -/
def validate_import (db : DB) (parsed : ParsedData)
    (mapping : List (String × String)) : ValidationResult :=
  let acc := parsed.sheet_categories.foldl
    (fun acc cat =>
      let s := validateCategoryStep db parsed.year mapping cat
      { errors := acc.errors ++ s.errors, warnings := acc.warnings ++ s.warnings,
        budget_count := acc.budget_count + s.budget_count,
        transaction_count := acc.transaction_count + s.transaction_count })
    ({ errors := [], warnings := [], budget_count := 0, transaction_count := 0 } : ValidationAcc)
  { valid := acc.errors.isEmpty, errors := acc.errors, warnings := acc.warnings,
    budget_count := acc.budget_count, transaction_count := acc.transaction_count }

/-! ### `import_budget_and_transactions` -/

/-- The summary dict `import_budget_and_transactions` returns. -/
structure ImportRunResult where
  budget_count : Nat
  transaction_count : Nat
  template_count : Nat
deriving DecidableEq

/-- `_ensure_import_payee`: fetch the synthetic payee by its well-known
name, creating it when absent; returns its id. -/
def ensure_import_payee (db : DB) (now : String) : String × DB :=
  match get_payee_by_name db "Import - Google Sheets" with
  | some p => (p.id, db)
  | none =>
    let u := generate_uid db
    (u.1, create_payee u.2
      { id := u.1, name := "Import - Google Sheets", type := "Generic", created_at := now })

/-- Python `f-string` date `year-month-01` with a zero-padded month. -/
def mkDateString (year : Int) (month : Nat) : String :=
  toString year ++ "-" ++ (if month < 10 then "0" ++ toString month else toString month) ++ "-01"

/-- The budget-entry loop of `import_budget_and_transactions` for one
category: one upsert per (month, amount), counting every iteration. -/
def runBudgetImports (categoryId : String) (year : Int) (now : String) :
    List (Nat × Int) → DB → DB × Nat
  | [], db => (db, 0)
  | bm :: rest, db =>
    let u := generate_uid db
    let db1 := create_or_update_budget_entry u.2
      { id := u.1, category_id := categoryId, year := year, month := bm.1,
        amount := bm.2, comment := none, created_at := now, updated_at := now }
    let r := runBudgetImports categoryId year now rest db1
    (r.1, r.2 + 1)

/-- The inner transaction loop: one fresh insert per bundled amount,
dated to the first day of the month. -/
def runTransactionAmounts (categoryId payeeId : String) (year : Int) (month : Nat)
    (now : String) : List Int → DB → DB × Nat
  | [], db => (db, 0)
  | amount :: rest, db =>
    let u := generate_uid db
    let db1 := create_transaction u.2
      { id := u.1, category_id := categoryId, payee_id := payeeId,
        date := mkDateString year month, amount := amount, comment := none,
        created_at := now, updated_at := now }
    let r := runTransactionAmounts categoryId payeeId year month now rest db1
    (r.1, r.2 + 1)

/-- The outer transaction loop over the months of one category. -/
def runTransactionImports (categoryId payeeId : String) (year : Int) (now : String) :
    List (Nat × List Int) → DB → DB × Nat
  | [], db => (db, 0)
  | ma :: rest, db =>
    let r1 := runTransactionAmounts categoryId payeeId year ma.1 now ma.2 db
    let r2 := runTransactionImports categoryId payeeId year now rest r1.1
    (r2.1, r1.2 + r2.2)

/-- The category loop of `import_budget_and_transactions`: budget
entries then transactions per category, accumulating both counts.
The source indexes the mapping dict directly (a missing key would raise
`KeyError`); the embedding defaults to the empty id, which the stated
theorems always guard with a mapped-name hypothesis. -/
def runCategoryImports (mapping : List (String × String)) (year : Int)
    (payeeId : String) (now : String) :
    List ParsedCategory → DB → DB × Nat × Nat
  | [], db => (db, 0, 0)
  | cat :: rest, db =>
    let categoryId := (lookupMapping mapping cat.name).getD ""
    let rb := runBudgetImports categoryId year now cat.budget db
    let rt := runTransactionImports categoryId payeeId year now cat.actuals rb.1
    let rr := runCategoryImports mapping year payeeId now rest rt.1
    (rr.1, rb.2 + rr.2.1, rt.2 + rr.2.2)

/-- The template loop of `import_budget_and_transactions`: for each id,
create the (year, category) membership only when none exists, counting
the creations. -/
def runTemplatePhase (year : Int) (now : String) :
    List String → DB → DB × Nat
  | [], db => (db, 0)
  | categoryId :: rest, db =>
    if budget_template_exists db year categoryId then
      runTemplatePhase year now rest db
    else
      let u := generate_uid db
      let db1 := create_budget_template u.2
        { id := u.1, year := year, category_id := categoryId, created_at := now }
      let r := runTemplatePhase year now rest db1
      (r.1, r.2 + 1)

/-- `set(category_mapping.values())` — the distinct mapped ids.  Python
set iteration order is unspecified; the embedding fixes one
duplicate-free enumeration, which no stated property depends on. -/
def uniqueCategoryIds (mapping : List (String × String)) : List String :=
  (mapping.map (fun p => p.2)).dedup

/-- Embedding of `import_budget_and_transactions` (src/import_logic.py):
ensure the import payee, write budget entries and transactions per
category, then ensure a template membership for every distinct mapped
category id.  `now` stands for `datetime.now()` of this run. -/
def executeImport (db : DB) (parsed : ParsedData)
    (mapping : List (String × String)) (now : String) : DB × ImportRunResult :=
  let pe := ensure_import_payee db now
  let rc := runCategoryImports mapping parsed.year pe.1 now parsed.sheet_categories pe.2
  let rt := runTemplatePhase parsed.year now (uniqueCategoryIds mapping) rc.1
  (rt.1, { budget_count := rc.2.1, transaction_count := rc.2.2, template_count := rt.2 })

/-- Number of (category, month) pairs carrying a budget figure. -/
def totalBudgetMonths (parsed : ParsedData) : Nat :=
  (parsed.sheet_categories.map (fun c => c.budget.length)).sum

/-- Total number of bundled actual amounts across the parse result. -/
def totalActuals (parsed : ParsedData) : Nat :=
  (parsed.sheet_categories.map (fun c => (c.actuals.map (fun a => a.2.length)).sum)).sum

/-! ### Spec-side vocabulary for stating the claims -/

/-- The forbidden-token scan succeeds: every forbidden token is either
absent from the text or is the passed-over minus sign. -/
def noForbidden (cs : List Char) : List String → Bool
  | [] => true
  | tok :: rest => (!(containsSub tok.data cs) || tok == "-") && noForbidden cs rest

/-- The truncated integer value the evaluator assigns to one raw
segment: `none` for a segment that strips to nothing (skipped). -/
def segmentValue (seg : List Char) : Option Int :=
  let p := trimChars seg
  if p.isEmpty then none else pyIntOfDecimal p

/-- A segment is valid when it strips to nothing or parses to a
non-negative value. -/
def validSegment (seg : List Char) : Bool :=
  let p := trimChars seg
  p.isEmpty ||
    (match pyIntOfDecimal p with
     | some v => decide (0 ≤ v)
     | none => false)

/-- A valid addition-only formula string of non-negative numbers: the
forbidden-token scan passes and every plus-separated segment of the
processed text is valid. -/
def validAdditionFormula (s : String) : Bool :=
  noForbidden (processedText s) forbiddenTokens &&
    (splitOnChar '+' (processedText s)).all validSegment

/-- The addend values of a formula in left-to-right order: each
non-empty segment converted via float then truncated to integer. -/
def addendValues (s : String) : List Int :=
  (splitOnChar '+' (processedText s)).filterMap segmentValue

/-- The exact written values of the addends, before truncation. -/
def writtenAddends (s : String) : List ℚ :=
  (splitOnChar '+' (processedText s)).filterMap (fun seg =>
    let p := trimChars seg
    if p.isEmpty then none else decimalValue p)

/-- The sum of the written addends of a formula. -/
def writtenSum (s : String) : ℚ := (writtenAddends s).sum

/-- Number of budget-entry rows at one (category, year, month) key. -/
def countBudgetKey (db : DB) (categoryId : String) (year : Int) (month : Nat) : Nat :=
  db.budget_entries.countP (matchBudgetKey categoryId year month)

/-- A key some category of the parse writes a budget entry for. -/
def writesBudgetKey (parsed : ParsedData) (mapping : List (String × String))
    (categoryId : String) (year : Int) (month : Nat) : Prop :=
  ∃ cat ∈ parsed.sheet_categories, ∃ bm ∈ cat.budget,
    (lookupMapping mapping cat.name).getD "" = categoryId ∧
      parsed.year = year ∧ bm.1 = month

/-! ### Concrete fixtures used by counterexamples and witnesses -/

/-- Hovedark sheet with an expense category whose January budget cell
holds a multiplication (a formula error) while its actuals are fine. -/
def badBudgetCellSheet : Sheet := sheetOfCells
  [(2, 3, "Utgifter"), (10, 3, "Inntekter"),
   (4, 3, "Mat"), (4, 4, "Budsjett"), (4, 6, "=5*3"),
   (5, 6, "=100")]

/-- Hovedark sheet whose expense category has a sound January budget
cell but a multiplication (a formula error) in its January actuals. -/
def badActualsCellSheet : Sheet := sheetOfCells
  [(2, 3, "Utgifter"), (10, 3, "Inntekter"),
   (4, 3, "Mat"), (4, 4, "Budsjett"), (4, 6, "=10"),
   (5, 6, "=5*3")]

/-- Hovedark sheet with one expense and one income category. -/
def demoHovedarkSheet : Sheet := sheetOfCells
  [(2, 3, "Utgifter"), (10, 3, "Inntekter"),
   (4, 3, "Mat"), (4, 4, "Budsjett"), (4, 6, "=1000"),
   (5, 6, "=575+2182"),
   (12, 3, "Lonn"), (12, 4, "Budsjett"), (12, 7, "52000"),
   (13, 7, "=55615.0")]

/-- Original-format sheet whose expense category has the budget text 0
for January (recorded as a zero budget amount by this layout). -/
def zeroBudgetOriginalSheet : Sheet := sheetOfCells
  [(7, 2, "Utgifter"),
   (8, 2, "Mat"), (9, 3, "0"), (10, 3, "=25")]

/-- Hovedark sheet whose category budget row has the budget text 0 for
January (dropped by this layout). -/
def zeroBudgetHovedarkSheet : Sheet := sheetOfCells
  [(2, 3, "Utgifter"), (6, 3, "Inntekter"),
   (4, 3, "Mat"), (4, 4, "Budsjett"), (4, 6, "0"),
   (5, 6, "=25")]

/-- A workbook in the named-sheet format with no Utgifter marker row. -/
def noMarkerWorkbook : Workbook :=
  { hovedark := some (sheetOfCells [(1, 4, "Budsjett")]),
    active := sheetOfCells [] }

/-- Two stored categories matching the demo parse. -/
def demoDB : DB :=
  { categories := [{ id := "c1", name := "Mat", type := "expenses" },
                   { id := "c2", name := "Lonn", type := "income" }],
    payees := [], budget_templates := [], budget_entries := [],
    transactions := [], next_uid := 0 }

/-- The parse result of `demoHovedarkSheet`. -/
def demoParsed : ParsedData :=
  { year := 2024,
    sheet_categories :=
      [{ name := "Mat", type := "expenses",
         budget := [(1, 1000)], actuals := [(1, [575, 2182])] },
       { name := "Lonn", type := "income",
         budget := [(2, 52000)], actuals := [(2, [55615])] }] }

/-- The demo name-to-id mapping. -/
def demoMapping : List (String × String) := [("Mat", "c1"), ("Lonn", "c2")]

/-! ## Lemmas about the formula evaluator -/

/-- Every amount the segment loop accepts is non-negative. -/
theorem parseSegments_nonneg {rowNum : Nat} {colName : String} :
    ∀ {segs : List (List Char)} {l : List Int},
      parseSegments rowNum colName segs = Except.ok l → ∀ v ∈ l, 0 ≤ v := by
  intro segs
  induction segs with
  | nil =>
    intro l h v hv
    simp only [parseSegments, Except.ok.injEq] at h
    subst h
    simp at hv
  | cons seg rest ih =>
    intro l h v hv
    simp only [parseSegments] at h
    split at h
    · exact ih h v hv
    · split at h
      · cases h
      · rename_i w hw
        split at h
        · cases h
        · rename_i hwneg
          split at h
          · cases h
          · rename_i tail htail
            cases h
            rcases List.mem_cons.mp hv with h1 | h2
            · subst h1
              omega
            · exact ih htail v h2

/-- Every amount the evaluator returns is non-negative. -/
theorem extract_amounts_nonneg {v : Option String} {rowNum : Nat} {colName : String}
    {l : List Int} (h : extract_amounts_from_formula v rowNum colName = Except.ok l) :
    ∀ x ∈ l, 0 ≤ x := by
  intro x hx
  unfold extract_amounts_from_formula at h
  split at h
  · cases h
    simp at hx
  · split at h
    · cases h
      simp at hx
    · split at h
      · cases h
        simp at hx
      · split at h
        · cases h
        · exact parseSegments_nonneg h x hx

/-- A passing forbidden scan succeeds whatever row and column labels the
errors would have carried. -/
theorem checkForbidden_ok_of_noForbidden {cs : List Char} (rowNum : Nat) (colName : String) :
    ∀ {toks : List String}, noForbidden cs toks = true →
      checkForbidden cs rowNum colName toks = Except.ok () := by
  intro toks
  induction toks with
  | nil => intro _; rfl
  | cons tok rest ih =>
    intro h
    simp only [noForbidden, Bool.and_eq_true, Bool.or_eq_true, Bool.not_eq_true'] at h
    obtain ⟨h1, h2⟩ := h
    rcases h1 with hnc | heq
    · simp only [checkForbidden, hnc]
      simp only [Bool.false_eq_true, if_false]
      exact ih h2
    · have : tok = "-" := by exact beq_iff_eq.mp heq
      subst this
      simp only [checkForbidden]
      split
      · norm_num [functionTokens]
        exact ih h2
      · exact ih h2

/-- On all-valid segments the loop returns exactly the per-segment
values in order. -/
theorem parseSegments_filterMap (rowNum : Nat) (colName : String) :
    ∀ {segs : List (List Char)}, (∀ seg ∈ segs, validSegment seg = true) →
      parseSegments rowNum colName segs = Except.ok (segs.filterMap segmentValue) := by
  intro segs
  induction segs with
  | nil => intro _; rfl
  | cons seg rest ih =>
    intro h
    have hseg := h seg (List.mem_cons_self _ _)
    have hrest := ih (fun s hs => h s (List.mem_cons_of_mem _ hs))
    by_cases hp : (trimChars seg).isEmpty
    · have hval : segmentValue seg = none := by simp [segmentValue, hp]
      simp only [parseSegments, hp, if_true, List.filterMap_cons, hval]
      exact hrest
    · simp only [validSegment, hp, Bool.false_or] at hseg
      cases hpv : pyIntOfDecimal (trimChars seg) with
      | none => rw [hpv] at hseg; cases hseg
      | some w =>
        rw [hpv] at hseg
        have hw : 0 ≤ w := of_decide_eq_true hseg
        have hval : segmentValue seg = some w := by simp [segmentValue, hp, hpv]
        simp only [parseSegments, hp, Bool.false_eq_true, if_false, hpv,
          List.filterMap_cons, hval]
        have : ¬(w < 0) := by omega
        simp only [this, if_false, hrest]

/-- Stripping an all-whitespace string leaves nothing. -/
theorem trimChars_eq_nil_of_all_space {l : List Char} (h : l.all isSpaceChar = true) :
    trimChars l = [] := by
  have h1 : l.dropWhile isSpaceChar = [] := by
    rw [List.dropWhile_eq_nil_iff]
    intro x hx
    exact List.all_eq_true.mp h x hx
  simp [trimChars, h1]

/-- A whitespace-only cell yields no amounts. -/
theorem extract_amounts_all_space {s : String} (rowNum : Nat) (colName : String)
    (h : s.data.all isSpaceChar = true) :
    extract_amounts_from_formula (some s) rowNum colName = Except.ok [] := by
  unfold extract_amounts_from_formula
  by_cases he : s == ""
  · simp [he]
  · simp only [he, Bool.false_eq_true, if_false]
    rw [if_pos]
    simp [trimChars_eq_nil_of_all_space h]

/-- A cell that strips to nothing has an empty processed text. -/
theorem processedText_of_trim_nil {s : String} (h : trimChars s.data = []) :
    processedText s = [] := by
  simp [processedText, h, stripEquals, stripParens]

/-- A cell that strips to nothing has no addend values. -/
theorem addendValues_of_trim_nil {s : String} (h : trimChars s.data = []) :
    addendValues s = [] := by
  unfold addendValues
  rw [processedText_of_trim_nil h]
  rfl

/-- On a valid addition-only formula the evaluator returns exactly the
truncated addend values, in left-to-right order. -/
theorem extract_amounts_valid {s : String} (rowNum : Nat) (colName : String)
    (h : validAdditionFormula s = true) :
    extract_amounts_from_formula (some s) rowNum colName = Except.ok (addendValues s) := by
  unfold validAdditionFormula at h
  simp only [Bool.and_eq_true, List.all_eq_true] at h
  obtain ⟨hnf, hsegs⟩ := h
  unfold extract_amounts_from_formula
  by_cases he : s == ""
  · have hs : s = "" := beq_iff_eq.mp he
    subst hs
    rw [addendValues_of_trim_nil (s := "") (by decide)]
    simp
  · simp only [he, Bool.false_eq_true, if_false]
    by_cases ht : (trimChars s.data).isEmpty
    · rw [if_pos ht]
      rw [addendValues_of_trim_nil (List.isEmpty_iff.mp ht)]
    · rw [if_neg ht]
      rw [checkForbidden_ok_of_noForbidden rowNum colName hnf]
      exact parseSegments_filterMap rowNum colName hsegs

/-- On segments whose written values are integral, the written addends
are the casts of the truncated addend values. -/
theorem filterMap_written_eq_map_cast :
    ∀ {segs : List (List Char)},
      (∀ seg ∈ segs, (trimChars seg).isEmpty = true ∨
         ∃ z : ℤ, pyIntOfDecimal (trimChars seg) = some z ∧
           decimalValue (trimChars seg) = some (z : ℚ)) →
      (segs.filterMap (fun seg =>
          if (trimChars seg).isEmpty then none else decimalValue (trimChars seg)))
        = (segs.filterMap segmentValue).map (fun z : ℤ => (z : ℚ)) := by
  intro segs
  induction segs with
  | nil => intro _; rfl
  | cons seg rest ih =>
    intro h
    have hseg := h seg (List.mem_cons_self _ _)
    have hrest := ih (fun x hx => h x (List.mem_cons_of_mem _ hx))
    rcases hseg with hempty | ⟨z, hz, hq⟩
    · have hval : segmentValue seg = none := by simp [segmentValue, hempty]
      simp only [List.filterMap_cons, hempty, if_true, hval, hrest]
    · have hne : ¬((trimChars seg).isEmpty = true) := by
        intro hc
        have hnil : trimChars seg = [] := List.isEmpty_iff.mp hc
        rw [hnil] at hz
        simp [pyIntOfDecimal, parseDecimalParts, parseExponent] at hz
      have hval : segmentValue seg = some z := by simp [segmentValue, hne, hz]
      simp only [List.filterMap_cons, if_neg hne, hq, hval, hrest, List.map_cons]

/-- C1 (amended): for every valid addition-only formula string of
non-negative numbers, the evaluator returns the list of addend values in
left-to-right order — leading equals sign and parentheses stripped, each
non-empty plus-separated segment converted via float then truncated to
integer — and the sum of the result equals the sum of the written
addends whenever every addend denotes an integer (in general the result
sums the truncated addends); `None`, the empty string and
whitespace-only input return the empty list, and the input 0 returns
the one-element list holding 0. -/
theorem claim_C1_amended :
    (∀ rowNum colName,
        extract_amounts_from_formula none rowNum colName = Except.ok [] ∧
        extract_amounts_from_formula (some "") rowNum colName = Except.ok [] ∧
        extract_amounts_from_formula (some "0") rowNum colName = Except.ok [0]) ∧
    (∀ s rowNum colName, s.data.all isSpaceChar = true →
        extract_amounts_from_formula (some s) rowNum colName = Except.ok []) ∧
    (∀ s rowNum colName, validAdditionFormula s = true →
        extract_amounts_from_formula (some s) rowNum colName = Except.ok (addendValues s)) ∧
    (∀ s, validAdditionFormula s = true →
        (∀ seg ∈ splitOnChar '+' (processedText s),
          (trimChars seg).isEmpty = true ∨
            ∃ z : ℤ, pyIntOfDecimal (trimChars seg) = some z ∧
              decimalValue (trimChars seg) = some (z : ℚ)) →
        ((addendValues s).sum : ℚ) = writtenSum s) := by
  refine ⟨fun rowNum colName => ⟨rfl, by simp [extract_amounts_from_formula], rfl⟩,
    fun s rowNum colName h => extract_amounts_all_space rowNum colName h,
    fun s rowNum colName h => extract_amounts_valid rowNum colName h,
    fun s _ hint => ?_⟩
  have hmap : writtenAddends s = (addendValues s).map (fun z : ℤ => (z : ℚ)) := by
    unfold writtenAddends addendValues
    exact filterMap_written_eq_map_cast hint
  unfold writtenSum
  rw [hmap, Int.cast_list_sum]

/-- C1 (counterexample): the formula 1.5 plus 2.5 is a valid
addition-only formula of non-negative numbers, yet the evaluator
returns the truncated addends whose sum 3 differs from the written sum
4 — refuting the unconditional written-sum clause of the claim. -/
theorem claim_C1_counterexample :
    validAdditionFormula "=1.5+2.5" = true ∧
    extract_amounts_from_formula (some "=1.5+2.5") 3 "F" = Except.ok [1, 2] ∧
    ((([1, 2] : List Int).sum : ℚ) ≠ writtenSum "=1.5+2.5") := by
  refine ⟨by decide, by decide, ?_⟩
  have h1 : splitOnChar '+' (processedText "=1.5+2.5") =
      [['1', '.', '5'], ['2', '.', '5']] := by decide
  have ht1 : trimChars ['1', '.', '5'] = ['1', '.', '5'] := by decide
  have ht2 : trimChars ['2', '.', '5'] = ['2', '.', '5'] := by decide
  have hp1 : parseDecimalParts ['1', '.', '5'] =
      some { neg := false, mantissa := 15, fracLen := 1, exp := 0 } := by decide
  have hp2 : parseDecimalParts ['2', '.', '5'] =
      some { neg := false, mantissa := 25, fracLen := 1, exp := 0 } := by decide
  have hsum : writtenSum "=1.5+2.5" = 4 := by
    unfold writtenSum writtenAddends
    rw [h1]
    simp only [List.filterMap_cons, ht1, ht2, decimalValue, hp1, hp2]
    norm_num
  rw [hsum]
  norm_num

/-- C1 (witness): the amended theorem applied to concrete inputs. -/
theorem claim_C1_witness :
    extract_amounts_from_formula (some " ") 2 "G" = Except.ok [] ∧
    extract_amounts_from_formula (some "=575+2182") 5 "F" =
      Except.ok (addendValues "=575+2182") ∧
    ((addendValues "=575+2182").sum : ℚ) = writtenSum "=575+2182" := by
  refine ⟨claim_C1_amended.2.1 " " 2 "G" (by decide),
    claim_C1_amended.2.2.1 "=575+2182" 5 "F" (by decide),
    claim_C1_amended.2.2.2 "=575+2182" (by decide) ?_⟩
  intro seg hseg
  rw [show splitOnChar '+' (processedText "=575+2182") =
      [['5', '7', '5'], ['2', '1', '8', '2']] from by decide] at hseg
  have hd1 : decimalValue ['5', '7', '5'] = some ((575 : ℤ) : ℚ) := by
    unfold decimalValue
    rw [show parseDecimalParts ['5', '7', '5'] =
        some { neg := false, mantissa := 575, fracLen := 0, exp := 0 } from by decide]
    norm_num
  have hd2 : decimalValue ['2', '1', '8', '2'] = some ((2182 : ℤ) : ℚ) := by
    unfold decimalValue
    rw [show parseDecimalParts ['2', '1', '8', '2'] =
        some { neg := false, mantissa := 2182, fracLen := 0, exp := 0 } from by decide]
    norm_num
  rcases List.mem_cons.mp hseg with h1 | h2
  · subst h1
    exact Or.inr ⟨575, by decide, by rw [show trimChars ['5', '7', '5'] =
        ['5', '7', '5'] from by decide]; exact hd1⟩
  · rcases List.mem_cons.mp h2 with h3 | h4
    · subst h3
      exact Or.inr ⟨2182, by decide, by rw [show trimChars ['2', '1', '8', '2'] =
          ['2', '1', '8', '2'] from by decide]; exact hd2⟩
    · simp at h4

/-- A non-stripped-to-nothing cell takes the main evaluator path:
forbidden scan first, segment loop after. -/
theorem extract_main_branch {s : String} (rowNum : Nat) (colName : String)
    (h : ¬(trimChars s.data = [])) :
    extract_amounts_from_formula (some s) rowNum colName =
      match checkForbidden (processedText s) rowNum colName forbiddenTokens with
      | Except.error e => Except.error e
      | Except.ok _ => parseSegments rowNum colName (splitOnChar '+' (processedText s)) := by
  have hs : ¬((s == "") = true) := by
    intro hc
    have := beq_iff_eq.mp hc
    subst this
    exact h rfl
  have ht : ¬(((trimChars s.data).isEmpty) = true) := by
    intro hc
    exact h (List.isEmpty_iff.mp hc)
  have hrfl : extract_amounts_from_formula (some s) rowNum colName =
      (if (s == "") then Except.ok []
       else if (trimChars s.data).isEmpty then Except.ok []
       else
         match checkForbidden (processedText s) rowNum colName forbiddenTokens with
         | Except.error e => Except.error e
         | Except.ok _ => parseSegments rowNum colName (splitOnChar '+' (processedText s))) := rfl
  rw [hrfl, if_neg hs, if_neg ht]

/-- A nonempty pattern found in the processed text means the cell does
not strip to nothing. -/
theorem trim_ne_nil_of_containsSub {s : String} {pat : List Char} (hpat : pat ≠ [])
    (h : containsSub pat (processedText s) = true) : ¬(trimChars s.data = []) := by
  intro hnil
  rw [processedText_of_trim_nil hnil] at h
  unfold containsSub at h
  rw [List.isEmpty_iff] at h
  exact hpat h

/-- A contained function token forces the complex-formula error, naming
a function token that is present. -/
theorem checkForbidden_function_error (cs : List Char) (rowNum : Nat) (colName : String)
    (h : ∃ tok ∈ functionTokens, containsSub tok.data cs = true) :
    ∃ tok ∈ functionTokens, containsSub tok.data cs = true ∧
      checkForbidden cs rowNum colName forbiddenTokens =
        Except.error (FormulaError.complexFormula rowNum colName tok) := by
  by_cases h1 : containsSub "IF".data cs = true
  · exact ⟨"IF", by decide, h1, by simp [checkForbidden, forbiddenTokens, h1, functionTokens]⟩
  by_cases h2 : containsSub "SUM".data cs = true
  · exact ⟨"SUM", by decide, h2,
      by simp [checkForbidden, forbiddenTokens, h1, h2, functionTokens]⟩
  by_cases h3 : containsSub "AVERAGE".data cs = true
  · exact ⟨"AVERAGE", by decide, h3,
      by simp [checkForbidden, forbiddenTokens, h1, h2, h3, functionTokens]⟩
  by_cases h4 : containsSub "COUNT".data cs = true
  · exact ⟨"COUNT", by decide, h4,
      by simp [checkForbidden, forbiddenTokens, h1, h2, h3, h4, functionTokens]⟩
  by_cases h5 : containsSub "MIN".data cs = true
  · exact ⟨"MIN", by decide, h5,
      by simp [checkForbidden, forbiddenTokens, h1, h2, h3, h4, h5, functionTokens]⟩
  by_cases h6 : containsSub "MAX".data cs = true
  · exact ⟨"MAX", by decide, h6,
      by simp [checkForbidden, forbiddenTokens, h1, h2, h3, h4, h5, h6, functionTokens]⟩
  exfalso
  obtain ⟨tok, htok, hc⟩ := h
  simp only [functionTokens, List.mem_cons, List.not_mem_nil, or_false] at htok
  rcases htok with rfl | rfl | rfl | rfl | rfl | rfl
  · exact h1 hc
  · exact h2 hc
  · exact h3 hc
  · exact h4 hc
  · exact h5 hc
  · exact h6 hc

/-- With no function token present, a contained star or slash forces the
only-addition error. -/
theorem checkForbidden_operator_error (cs : List Char) (rowNum : Nat) (colName : String)
    (hfn : ∀ tok ∈ functionTokens, containsSub tok.data cs = false)
    (hop : containsSub ['*'] cs = true ∨ containsSub ['/'] cs = true) :
    checkForbidden cs rowNum colName forbiddenTokens =
      Except.error (FormulaError.onlyAddition rowNum colName) := by
  have h1 := hfn "IF" (by decide)
  have h2 := hfn "SUM" (by decide)
  have h3 := hfn "AVERAGE" (by decide)
  have h4 := hfn "COUNT" (by decide)
  have h5 := hfn "MIN" (by decide)
  have h6 := hfn "MAX" (by decide)
  by_cases hstar : containsSub ['*'] cs = true
  · simp [checkForbidden, forbiddenTokens, h1, h2, h3, h4, h5, h6, hstar, functionTokens]
  · have hslash : containsSub ['/'] cs = true := by
      rcases hop with h | h
      · exact absurd h hstar
      · exact h
    have hstar' : containsSub ['*'] cs = false := by
      cases hcc : containsSub ['*'] cs
      · rfl
      · exact absurd hcc hstar
    simp [checkForbidden, forbiddenTokens, h1, h2, h3, h4, h5, h6, hstar', hslash, functionTokens]

/-- When every parsable segment is non-negative but some non-empty
segment does not parse, the segment loop fails with the
invalid-number-format error of some offending part. -/
theorem parseSegments_invalid_error (rowNum : Nat) (colName : String) :
    ∀ {segs : List (List Char)},
      (∀ seg ∈ segs, ∀ v, pyIntOfDecimal (trimChars seg) = some v → 0 ≤ v) →
      (∃ seg ∈ segs, (trimChars seg).isEmpty = false ∧ pyIntOfDecimal (trimChars seg) = none) →
      ∃ p, parseSegments rowNum colName segs =
        Except.error (FormulaError.invalidNumber rowNum colName p) := by
  intro segs
  induction segs with
  | nil =>
    intro _ hbad
    simp at hbad
  | cons seg rest ih =>
    intro hnn hbad
    by_cases hp : (trimChars seg).isEmpty = true
    · have hrest : ∃ x ∈ rest, (trimChars x).isEmpty = false ∧ pyIntOfDecimal (trimChars x) = none := by
        obtain ⟨x, hx, hxe, hxn⟩ := hbad
        rcases List.mem_cons.mp hx with h1 | h2
        · subst h1
          rw [hp] at hxe
          cases hxe
        · exact ⟨x, h2, hxe, hxn⟩
      obtain ⟨p, hpp⟩ := ih (fun x hx => hnn x (List.mem_cons_of_mem _ hx)) hrest
      exact ⟨p, by simp only [parseSegments, hp, if_true]; exact hpp⟩
    · cases hpv : pyIntOfDecimal (trimChars seg) with
      | none =>
        refine ⟨String.mk (trimChars seg), ?_⟩
        simp only [parseSegments, hp, Bool.false_eq_true, if_false, hpv]
      | some v =>
        have hv : 0 ≤ v := hnn seg (List.mem_cons_self _ _) v hpv
        have hvneg : ¬(v < 0) := by omega
        have hrest : ∃ x ∈ rest, (trimChars x).isEmpty = false ∧ pyIntOfDecimal (trimChars x) = none := by
          obtain ⟨x, hx, hxe, hxn⟩ := hbad
          rcases List.mem_cons.mp hx with h1 | h2
          · subst h1
            rw [hpv] at hxn
            cases hxn
          · exact ⟨x, h2, hxe, hxn⟩
        obtain ⟨p, hpp⟩ := ih (fun x hx => hnn x (List.mem_cons_of_mem _ hx)) hrest
        refine ⟨p, ?_⟩
        simp only [parseSegments, hp, Bool.false_eq_true, if_false, hpv, hvneg, hpp]

/-- C4: the evaluator checks the literal processed text for forbidden
tokens first — a contained function token fails with the complex-formula
error naming a present function token, a star or slash (with no function
token present) fails with the only-addition error, both carrying row and
column — and only afterwards parses segments and rejects negatives, so
the formulas equal-minus-500 and 100-plus-minus-600 both fail with the
distinct negative-value error, and a non-parsing segment fails with the
invalid-number-format error. -/
theorem claim_C4 :
    (∀ s rowNum colName,
        (∃ tok ∈ functionTokens, containsSub tok.data (processedText s) = true) →
        ∃ tok ∈ functionTokens, containsSub tok.data (processedText s) = true ∧
          extract_amounts_from_formula (some s) rowNum colName =
            Except.error (FormulaError.complexFormula rowNum colName tok)) ∧
    (∀ s rowNum colName,
        (∀ tok ∈ functionTokens, containsSub tok.data (processedText s) = false) →
        (containsSub ['*'] (processedText s) = true ∨
          containsSub ['/'] (processedText s) = true) →
        extract_amounts_from_formula (some s) rowNum colName =
          Except.error (FormulaError.onlyAddition rowNum colName)) ∧
    (∀ rowNum colName,
        extract_amounts_from_formula (some "=-500") rowNum colName =
          Except.error (FormulaError.negativeValue rowNum colName (-500)) ∧
        extract_amounts_from_formula (some "=100+-600") rowNum colName =
          Except.error (FormulaError.negativeValue rowNum colName (-600))) ∧
    (∀ s rowNum colName,
        noForbidden (processedText s) forbiddenTokens = true →
        (∀ seg ∈ splitOnChar '+' (processedText s), ∀ v,
            pyIntOfDecimal (trimChars seg) = some v → 0 ≤ v) →
        (∃ seg ∈ splitOnChar '+' (processedText s),
            (trimChars seg).isEmpty = false ∧ pyIntOfDecimal (trimChars seg) = none) →
        ∃ p, extract_amounts_from_formula (some s) rowNum colName =
            Except.error (FormulaError.invalidNumber rowNum colName p)) := by
  refine ⟨?_, ?_, fun rowNum colName => ⟨rfl, rfl⟩, ?_⟩
  · intro s rowNum colName h
    obtain ⟨tok, htok, hc, herr⟩ := checkForbidden_function_error (processedText s) rowNum colName h
    have hne : tok.data ≠ [] := by
      simp only [functionTokens, List.mem_cons, List.not_mem_nil, or_false] at htok
      rcases htok with rfl | rfl | rfl | rfl | rfl | rfl <;> decide
    refine ⟨tok, htok, hc, ?_⟩
    rw [extract_main_branch rowNum colName (trim_ne_nil_of_containsSub hne hc), herr]
  · intro s rowNum colName hfn hop
    have hne : ¬(trimChars s.data = []) := by
      rcases hop with h | h
      · exact trim_ne_nil_of_containsSub (by decide) h
      · exact trim_ne_nil_of_containsSub (by decide) h
    rw [extract_main_branch rowNum colName hne,
      checkForbidden_operator_error (processedText s) rowNum colName hfn hop]
  · intro s rowNum colName hnf hnn hbad
    have hne : ¬(trimChars s.data = []) := by
      intro hnil
      obtain ⟨seg, hseg, hsege, _⟩ := hbad
      rw [processedText_of_trim_nil hnil] at hseg
      simp only [splitOnChar, List.mem_cons, List.not_mem_nil, or_false] at hseg
      subst hseg
      simp [trimChars] at hsege
    obtain ⟨p, hpp⟩ := parseSegments_invalid_error rowNum colName hnn hbad
    refine ⟨p, ?_⟩
    rw [extract_main_branch rowNum colName hne,
      checkForbidden_ok_of_noForbidden rowNum colName hnf]
    exact hpp

/-- C4 (witness): the theorem applied to concrete malformed formulas. -/
theorem claim_C4_witness :
    (∃ tok ∈ functionTokens,
        containsSub tok.data (processedText "=IF(A1>0,100,200)") = true ∧
        extract_amounts_from_formula (some "=IF(A1>0,100,200)") 7 "H" =
          Except.error (FormulaError.complexFormula 7 "H" tok)) ∧
    extract_amounts_from_formula (some "=43*2") 7 "H" =
      Except.error (FormulaError.onlyAddition 7 "H") ∧
    (∃ p, extract_amounts_from_formula (some "=abc") 7 "H" =
        Except.error (FormulaError.invalidNumber 7 "H" p)) := by
  refine ⟨claim_C4.1 "=IF(A1>0,100,200)" 7 "H" ⟨"IF", by decide, by decide⟩,
    claim_C4.2.1 "=43*2" 7 "H" (by decide) (Or.inl (by decide)),
    claim_C4.2.2.2 "=abc" 7 "H" (by decide) ?_ ⟨['a', 'b', 'c'], by decide, by decide, by decide⟩⟩
  intro seg hseg v hv
  rw [show splitOnChar '+' (processedText "=abc") = [['a', 'b', 'c']] from by decide] at hseg
  simp only [List.mem_cons, List.not_mem_nil, or_false] at hseg
  subst hseg
  rw [show pyIntOfDecimal (trimChars ['a', 'b', 'c']) = none from by decide] at hv
  cases hv

/-- A digit string is numerically below one followed by that many zeros. -/
theorem digitsVal_lt {ds : List Char} (h : ds.all isDigitChar = true) :
    digitsVal ds < 10 ^ ds.length := by
  induction ds with
  | nil => simp [digitsVal]
  | cons c rest ih =>
    simp only [List.all_cons, Bool.and_eq_true] at h
    obtain ⟨hc, hrest⟩ := h
    have h9 : digitVal c ≤ 9 := by
      simp only [isDigitChar, Bool.and_eq_true, decide_eq_true_eq] at hc
      unfold digitVal
      omega
    have h1 : digitVal c * 10 ^ rest.length ≤ 9 * 10 ^ rest.length :=
      Nat.mul_le_mul_right _ h9
    have h2 := ih hrest
    have h3 : (10 : Nat) ^ (rest.length + 1) = 10 * 10 ^ rest.length := by ring
    simp only [digitsVal, List.length_cons, h3]
    omega

/-- C9: because each segment is truncated toward zero before the
negativity check, a negative segment of magnitude below one truncates to
zero and is accepted rather than rejected: minus zero point anything
parses to zero, a zero-truncating segment passes the loop, and the
formula 100 plus minus 0.9 returns the amounts 100 and 0 instead of
failing with a negative-value error. -/
theorem claim_C9 :
    (∀ rowNum colName,
        extract_amounts_from_formula (some "=100+-0.9") rowNum colName =
          Except.ok [100, 0]) ∧
    (∀ ds : List Char, ds ≠ [] → ds.all isDigitChar = true →
        pyIntOfDecimal ('-' :: '0' :: '.' :: ds) = some 0) ∧
    (∀ rowNum colName seg, pyIntOfDecimal (trimChars seg) = some 0 →
        parseSegments rowNum colName [seg] = Except.ok [0]) := by
  refine ⟨fun rowNum colName => rfl, ?_, ?_⟩
  · intro ds hne hall
    have hdrop : ds.dropWhile isDigitChar = [] :=
      List.dropWhile_eq_nil_iff.mpr (fun x hx => List.all_eq_true.mp hall x hx)
    have htake : ds.takeWhile isDigitChar = ds := by
      have h := List.takeWhile_append_dropWhile (p := isDigitChar) (l := ds)
      rw [hdrop, List.append_nil] at h
      exact h
    have hlt : digitsVal ds < 10 ^ ds.length := digitsVal_lt hall
    unfold pyIntOfDecimal parseDecimalParts
    simp only [List.takeWhile_cons, List.dropWhile_cons,
      show isDigitChar '0' = true from by decide,
      show isDigitChar '.' = false from by decide, if_true, if_false,
      Bool.false_eq_true, htake, hdrop]
    simp only [parseExponent]
    simp only [List.isEmpty_cons, Bool.and_eq_true]
    have hmant : digitsVal ('0' :: ds) = digitsVal ds := by
      simp [digitsVal, digitVal]
    simp only [List.cons_append, List.nil_append, hmant]
    have htr : truncMagnitude (digitsVal ds) ds.length 0 = 0 := by
      unfold truncMagnitude
      rw [if_pos (le_refl 0)]
      simp only [Int.toNat_zero, pow_zero, Nat.mul_one]
      exact Nat.div_eq_of_lt hlt
    simp [htr]
  · intro rowNum colName seg hz
    have hne : ¬((trimChars seg).isEmpty = true) := by
      intro hc
      rw [List.isEmpty_iff.mp hc] at hz
      simp [pyIntOfDecimal, parseDecimalParts, parseExponent] at hz
    simp only [parseSegments, hne, Bool.false_eq_true, if_false, hz]
    norm_num

/-- C9 (witness): the truncation and acceptance facts at the concrete
segment minus 0.9. -/
theorem claim_C9_witness :
    pyIntOfDecimal ('-' :: '0' :: '.' :: ['9']) = some 0 ∧
    parseSegments 4 "G" [['-', '0', '.', '9']] = Except.ok [0] := by
  refine ⟨claim_C9.2.1 ['9'] (by decide) (by decide), ?_⟩
  exact claim_C9.2.2 4 "G" ['-', '0', '.', '9'] (by decide)

/-! ## Lemmas about the two worksheet scanners -/

/-- If any row of the Hovedark scan errors, the whole scan errors. -/
theorem hovedarkScan_error_of_mem {sheet : Sheet} {utgRow innRow : Nat} :
    ∀ {rows : List Nat} {row : Nat} {e : ScanError}, row ∈ rows →
      hovedarkProcessRow sheet utgRow innRow row = Except.error e →
      ∃ e2, hovedarkScan sheet utgRow innRow rows = Except.error e2 := by
  intro rows
  induction rows with
  | nil => intro row e h; simp at h
  | cons r rest ih =>
    intro row e hmem herr
    rcases List.mem_cons.mp hmem with h1 | h2
    · subst h1
      exact ⟨e, by simp only [hovedarkScan, herr]⟩
    · cases hr : hovedarkProcessRow sheet utgRow innRow r with
      | error e1 => exact ⟨e1, by simp only [hovedarkScan, hr]⟩
      | ok v =>
        obtain ⟨e2, he2⟩ := ih h2 herr
        cases v with
        | none => exact ⟨e2, by simp only [hovedarkScan, hr]; exact he2⟩
        | some c => exact ⟨e2, by simp only [hovedarkScan, hr, he2]⟩

/-- If any row of an original-format category loop errors, the loop
errors. -/
theorem originalScan_error_of_mem {sheet : Sheet} {categoryType : String} :
    ∀ {rows : List Nat} {row : Nat} {e : ScanError}, row ∈ rows →
      originalProcessRow sheet categoryType row = Except.error e →
      ∃ e2, originalScan sheet categoryType rows = Except.error e2 := by
  intro rows
  induction rows with
  | nil => intro row e h; simp at h
  | cons r rest ih =>
    intro row e hmem herr
    rcases List.mem_cons.mp hmem with h1 | h2
    · subst h1
      exact ⟨e, by simp only [originalScan, herr]⟩
    · cases hr : originalProcessRow sheet categoryType r with
      | error e1 => exact ⟨e1, by simp only [originalScan, hr]⟩
      | ok v =>
        obtain ⟨e2, he2⟩ := ih h2 herr
        cases v with
        | none => exact ⟨e2, by simp only [originalScan, hr]; exact he2⟩
        | some c => exact ⟨e2, by simp only [originalScan, hr, he2]⟩

/-- Every error of a Hovedark row is a wrapped formula error of that
row's actuals extraction (budget-cell errors are caught and skipped). -/
theorem hovedarkProcessRow_error_shape {sheet : Sheet} {utgRow innRow row : Nat}
    {e : ScanError} (h : hovedarkProcessRow sheet utgRow innRow row = Except.error e) :
    ∃ name fe, e = ScanError.categoryFormula name fe ∧
      extractActualsRow sheet monthColumnsHovedark (row + 1) = Except.error fe := by
  simp only [hovedarkProcessRow] at h
  split at h
  · cases h
  · split at h
    · cases h
    · split at h
      · cases h
      · split at h
        · cases h
        · split at h
          · rename_i fe hfe
            injection h with h
            exact ⟨_, fe, h.symm, hfe⟩
          · split at h
            · cases h
            · cases h

/-- Every error of an original-format row is a wrapped formula error of
that row's actuals extraction. -/
theorem originalProcessRow_error_shape {sheet : Sheet} {categoryType : String} {row : Nat}
    {e : ScanError} (h : originalProcessRow sheet categoryType row = Except.error e) :
    ∃ name fe, e = ScanError.categoryFormula name fe ∧
      extractActualsRow sheet monthColumnsOriginal (row + 2) = Except.error fe := by
  simp only [originalProcessRow] at h
  split at h
  · cases h
  · split at h
    · cases h
    · split at h
      · rename_i fe hfe
        injection h with h
        exact ⟨_, fe, h.symm, hfe⟩
      · split at h
        · cases h
        · cases h

/-- C3 (counterexample): a formula error in a budget-row cell does not
abort the parse — the bad cell is skipped and the file parses. -/
theorem claim_C3_counterexample :
    extract_amounts_from_formula (some "=5*3") 4 "F" =
      Except.error (FormulaError.onlyAddition 4 "F") ∧
    parse_hovedark_format badBudgetCellSheet 2024 =
      Except.ok { year := 2024, sheet_categories :=
        [{ name := "Mat", type := "expenses", budget := [], actuals := [(1, [100])] }] } :=
  ⟨by decide, by decide⟩

/-- C3 (amended): a formula error raised while extracting an actuals-row
cell of a category block propagates out of the scan loop uncaught, so a
single bad actuals cell aborts the entire file parse with no partial
result, in both layouts; a formula error in a budget-row cell is caught
and only that cell is skipped. -/
theorem claim_C3_amended :
    (∀ sheet utgRow innRow row (e : ScanError),
        hovedarkProcessRow sheet utgRow innRow row = Except.error e →
        ∃ name fe, e = ScanError.categoryFormula name fe ∧
          extractActualsRow sheet monthColumnsHovedark (row + 1) = Except.error fe) ∧
    (∀ sheet year utgRow innRow row (e : ScanError),
        findSectionRowsHovedark sheet = (some utgRow, some innRow) →
        row ∈ rowRange →
        hovedarkProcessRow sheet utgRow innRow row = Except.error e →
        ∃ e2, parse_hovedark_format sheet year = Except.error e2) ∧
    (∀ sheet categoryType row (e : ScanError),
        originalProcessRow sheet categoryType row = Except.error e →
        ∃ name fe, e = ScanError.categoryFormula name fe ∧
          extractActualsRow sheet monthColumnsOriginal (row + 2) = Except.error fe) ∧
    (∀ sheet year utgRow row (e : ScanError),
        findUtgifterOriginal sheet = some utgRow →
        ((row ∈ pyRange 8 utgRow 4 ∧
            originalProcessRow sheet "income" row = Except.error e) ∨
         (row ∈ pyRange (utgRow + 1) 60 3 ∧
            originalProcessRow sheet "expenses" row = Except.error e)) →
        ∃ e2, parse_original_format sheet year = Except.error e2) := by
  refine ⟨fun _ _ _ _ _ h => hovedarkProcessRow_error_shape h, ?_,
    fun _ _ _ _ h => originalProcessRow_error_shape h, ?_⟩
  · intro sheet year utgRow innRow row e hfind hmem herr
    obtain ⟨e2, he2⟩ := hovedarkScan_error_of_mem hmem herr
    refine ⟨e2, ?_⟩
    have hred : parse_hovedark_format sheet year =
        (match hovedarkScan sheet utgRow innRow rowRange with
         | Except.error e => Except.error e
         | Except.ok cats =>
           if cats.isEmpty then Except.error ScanError.noCategories
           else Except.ok { year := year, sheet_categories := cats }) := by
      unfold parse_hovedark_format
      rw [hfind]
    rw [hred, he2]
  · intro sheet year utgRow row e hfind hcase
    have hred : parse_original_format sheet year =
        (match originalScan sheet "income" (pyRange 8 utgRow 4) with
         | Except.error e => Except.error e
         | Except.ok incomeCats =>
           match originalScan sheet "expenses" (pyRange (utgRow + 1) 60 3) with
           | Except.error e => Except.error e
           | Except.ok expenseCats =>
             if (incomeCats ++ expenseCats).isEmpty then Except.error ScanError.noCategories
             else Except.ok { year := year, sheet_categories := incomeCats ++ expenseCats }) := by
      unfold parse_original_format
      rw [hfind]
    rcases hcase with ⟨hmem, herr⟩ | ⟨hmem, herr⟩
    · obtain ⟨e2, he2⟩ := originalScan_error_of_mem hmem herr
      exact ⟨e2, by rw [hred, he2]⟩
    · cases hinc : originalScan sheet "income" (pyRange 8 utgRow 4) with
      | error e1 => exact ⟨e1, by rw [hred, hinc]⟩
      | ok cats =>
        obtain ⟨e2, he2⟩ := originalScan_error_of_mem hmem herr
        exact ⟨e2, by rw [hred, hinc, he2]⟩

/-- C3 (witness): the amended theorem applied to a sheet with a bad
actuals cell: the whole parse errors. -/
theorem claim_C3_witness :
    ∃ e2, parse_hovedark_format badActualsCellSheet 2024 = Except.error e2 :=
  claim_C3_amended.2.1 badActualsCellSheet 2024 2 10 4
    (ScanError.categoryFormula "Mat" (FormulaError.onlyAddition 5 "F"))
    (by decide) (by decide) (by decide)

/-- Every category a Hovedark row emits carries that row's budget
extraction and the section classification of the row position. -/
theorem hovedarkProcessRow_some_shape {sheet : Sheet} {utgRow innRow row : Nat}
    {c : ParsedCategory}
    (h : hovedarkProcessRow sheet utgRow innRow row = Except.ok (some c)) :
    c.budget = extractBudgetHovedark sheet row ∧
    ((utgRow < row ∧ (row < innRow ∨ innRow < utgRow)) ∧ c.type = "expenses" ∨
     ¬(utgRow < row ∧ (row < innRow ∨ innRow < utgRow)) ∧ innRow < row ∧
       c.type = "income") := by
  simp only [hovedarkProcessRow] at h
  split at h
  · simp at h
  · split at h
    · simp at h
    · rename_i rawName hraw
      split at h
      · simp at h
      · split at h
        · simp at h
        · rename_i categoryType hty
          split at h
          · simp at h
          · rename_i actuals hact
            split at h
            · simp at h
            · injection h with h
              injection h with h
              subst h
              refine ⟨rfl, ?_⟩
              by_cases hA : utgRow < row ∧ (row < innRow ∨ innRow < utgRow)
              · rw [if_pos hA] at hty
                injection hty with hty
                exact Or.inl ⟨hA, hty.symm⟩
              · rw [if_neg hA] at hty
                by_cases hB : innRow < row
                · rw [if_pos hB] at hty
                  injection hty with hty
                  exact Or.inr ⟨hA, hB, hty.symm⟩
                · rw [if_neg hB] at hty
                  cases hty

/-- A row before both section markers contributes nothing. -/
theorem hovedarkProcessRow_skip_before {sheet : Sheet} {utgRow innRow row : Nat}
    (h1 : row < utgRow) (h2 : row < innRow) :
    hovedarkProcessRow sheet utgRow innRow row = Except.ok none := by
  simp only [hovedarkProcessRow]
  split
  · rfl
  · split
    · rfl
    · split
      · rfl
      · have hA : ¬(utgRow < row ∧ (row < innRow ∨ innRow < utgRow)) := by omega
        have hB : ¬(innRow < row) := by omega
        rw [if_neg hA, if_neg hB]

/-- A row whose stripped name contains a total marker contributes
nothing. -/
theorem hovedarkProcessRow_skip_total {sheet : Sheet} {utgRow innRow row : Nat}
    {s : String} (hcell : sheet row 3 = some s)
    (htot : (containsSub "Total".data (trimChars s.data) ||
             containsSub "Totale".data (trimChars s.data)) = true) :
    hovedarkProcessRow sheet utgRow innRow row = Except.ok none := by
  simp only [hovedarkProcessRow, hcell, String.data]
  rw [if_pos htot]
  split <;> rfl

/-- A row whose extraction yields neither budget nor actuals data is
dropped silently, without error. -/
theorem hovedarkProcessRow_skip_sparse {sheet : Sheet} {utgRow innRow row : Nat}
    (hb : extractBudgetHovedark sheet row = [])
    (ha : extractActualsRow sheet monthColumnsHovedark (row + 1) = Except.ok []) :
    hovedarkProcessRow sheet utgRow innRow row = Except.ok none := by
  simp only [hovedarkProcessRow, hb, ha]
  split
  · rfl
  · split
    · rfl
    · split
      · rfl
      · split
        · rfl
        · simp

/-- C7: in the named-sheet layout, a category anchor row is classified
as expenses when it lies after the Utgifter marker and before the
Inntekter marker (or Inntekter precedes Utgifter), as income when it
lies after the Inntekter marker and is not an expenses row, and is
skipped when it lies before both markers; rows whose stripped name
contains a total marker are skipped; and a category whose extraction
yields neither budget nor actuals data is dropped silently without
error. -/
theorem claim_C7 :
    (∀ sheet utgRow innRow row (c : ParsedCategory),
        hovedarkProcessRow sheet utgRow innRow row = Except.ok (some c) →
        ((utgRow < row ∧ (row < innRow ∨ innRow < utgRow)) → c.type = "expenses") ∧
        (¬(utgRow < row ∧ (row < innRow ∨ innRow < utgRow)) → innRow < row →
          c.type = "income")) ∧
    (∀ sheet utgRow innRow row, row < utgRow → row < innRow →
        hovedarkProcessRow sheet utgRow innRow row = Except.ok none) ∧
    (∀ sheet utgRow innRow row (s : String), sheet row 3 = some s →
        (containsSub "Total".data (trimChars s.data) ||
          containsSub "Totale".data (trimChars s.data)) = true →
        hovedarkProcessRow sheet utgRow innRow row = Except.ok none) ∧
    (∀ sheet utgRow innRow row,
        extractBudgetHovedark sheet row = [] →
        extractActualsRow sheet monthColumnsHovedark (row + 1) = Except.ok [] →
        hovedarkProcessRow sheet utgRow innRow row = Except.ok none) := by
  refine ⟨?_, fun _ _ _ _ h1 h2 => hovedarkProcessRow_skip_before h1 h2,
    fun _ _ _ _ _ hcell htot => hovedarkProcessRow_skip_total hcell htot,
    fun _ _ _ _ hb ha => hovedarkProcessRow_skip_sparse hb ha⟩
  intro sheet utgRow innRow row c h
  have hshape := (hovedarkProcessRow_some_shape h).2
  constructor
  · intro hA
    rcases hshape with ⟨_, hty⟩ | ⟨hnA, _, _⟩
    · exact hty
    · exact absurd hA hnA
  · intro hnA hB
    rcases hshape with ⟨hA, _⟩ | ⟨_, _, hty⟩
    · exact absurd hA hnA
    · exact hty

/-- C7 (witness): the classification and skip rules at concrete rows of
the demo sheet. -/
theorem claim_C7_witness :
    ({ name := "Mat", type := "expenses", budget := [(1, 1000)],
       actuals := [(1, [575, 2182])] } : ParsedCategory).type = "expenses" ∧
    hovedarkProcessRow demoHovedarkSheet 2 10 1 = Except.ok none ∧
    hovedarkProcessRow (sheetOfCells [(3, 3, "Totale utgifter"), (3, 4, "Budsjett")]) 1 2 3 =
      Except.ok none ∧
    hovedarkProcessRow demoHovedarkSheet 2 10 20 = Except.ok none := by
  refine ⟨?_, claim_C7.2.1 demoHovedarkSheet 2 10 1 (by decide) (by decide),
    claim_C7.2.2.1 (sheetOfCells [(3, 3, "Totale utgifter"), (3, 4, "Budsjett")]) 1 2 3
      "Totale utgifter" (by decide) (by decide),
    claim_C7.2.2.2 demoHovedarkSheet 2 10 20 (by decide) (by decide)⟩
  exact (claim_C7.1 demoHovedarkSheet 2 10 4 _ (by decide)).1 (by omega)

/-- A Hovedark scan over rows that all contribute nothing succeeds with
no categories. -/
theorem hovedarkScan_all_none {sheet : Sheet} {utgRow innRow : Nat} :
    ∀ {rows : List Nat},
      (∀ row ∈ rows, hovedarkProcessRow sheet utgRow innRow row = Except.ok none) →
      hovedarkScan sheet utgRow innRow rows = Except.ok [] := by
  intro rows
  induction rows with
  | nil => intro _; rfl
  | cons r rest ih =>
    intro h
    simp only [hovedarkScan, h r (List.mem_cons_self _ _)]
    exact ih (fun x hx => h x (List.mem_cons_of_mem _ hx))

/-- An original-format loop over rows that all contribute nothing
succeeds with no categories. -/
theorem originalScan_all_none {sheet : Sheet} {categoryType : String} :
    ∀ {rows : List Nat},
      (∀ row ∈ rows, originalProcessRow sheet categoryType row = Except.ok none) →
      originalScan sheet categoryType rows = Except.ok [] := by
  intro rows
  induction rows with
  | nil => intro _; rfl
  | cons r rest ih =>
    intro h
    simp only [originalScan, h r (List.mem_cons_self _ _)]
    exact ih (fun x hx => h x (List.mem_cons_of_mem _ hx))

/-- A missing expense marker fails the original-format parse. -/
theorem parse_original_noUtgifter {sheet : Sheet} {year : Int}
    (h : findUtgifterOriginal sheet = none) :
    parse_original_format sheet year = Except.error ScanError.noUtgifterMarker := by
  unfold parse_original_format
  rw [h]

/-- An original-format scan that finds its marker but no category rows
fails with the no-categories error. -/
theorem parse_original_noCategories {sheet : Sheet} {year : Int} {u : Nat}
    (hu : findUtgifterOriginal sheet = some u)
    (hin : ∀ row ∈ pyRange 8 u 4, originalProcessRow sheet "income" row = Except.ok none)
    (hex : ∀ row ∈ pyRange (u + 1) 60 3,
      originalProcessRow sheet "expenses" row = Except.ok none) :
    parse_original_format sheet year = Except.error ScanError.noCategories := by
  have hred : parse_original_format sheet year =
      (match originalScan sheet "income" (pyRange 8 u 4) with
       | Except.error e => Except.error e
       | Except.ok incomeCats =>
         match originalScan sheet "expenses" (pyRange (u + 1) 60 3) with
         | Except.error e => Except.error e
         | Except.ok expenseCats =>
           if (incomeCats ++ expenseCats).isEmpty then Except.error ScanError.noCategories
           else Except.ok { year := year, sheet_categories := incomeCats ++ expenseCats }) := by
    unfold parse_original_format
    rw [hu]
  rw [hred, originalScan_all_none hin, originalScan_all_none hex]
  rfl

/-- C8: `parse_excel_file` fails with the missing-section-marker error
when a required marker row cannot be located (Utgifter, and for the
named-sheet layout also Inntekter), and with the no-categories error
when a full scan yields zero categories. -/
theorem claim_C8 :
    (∀ (wb : Workbook) (year : Int) (sheet : Sheet), validate_year year = true →
        wb.hovedark = some sheet → isNewFormat sheet = true →
        (((findSectionRowsHovedark sheet).1 = none →
            parse_excel_file wb year =
              Except.error (ParseFileError.scan ScanError.noUtgifterMarker)) ∧
         (∀ u, findSectionRowsHovedark sheet = (some u, none) →
            parse_excel_file wb year =
              Except.error (ParseFileError.scan ScanError.noInntekterMarker)) ∧
         (∀ u i, findSectionRowsHovedark sheet = (some u, some i) →
            (∀ row ∈ rowRange, hovedarkProcessRow sheet u i row = Except.ok none) →
            parse_excel_file wb year =
              Except.error (ParseFileError.scan ScanError.noCategories)))) ∧
    (∀ (wb : Workbook) (year : Int), validate_year year = true →
        (wb.hovedark = none ∨
          ∃ sheet, wb.hovedark = some sheet ∧ isNewFormat sheet = false) →
        ((findUtgifterOriginal wb.active = none →
            parse_excel_file wb year =
              Except.error (ParseFileError.scan ScanError.noUtgifterMarker)) ∧
         (∀ u, findUtgifterOriginal wb.active = some u →
            (∀ row ∈ pyRange 8 u 4,
              originalProcessRow wb.active "income" row = Except.ok none) →
            (∀ row ∈ pyRange (u + 1) 60 3,
              originalProcessRow wb.active "expenses" row = Except.ok none) →
            parse_excel_file wb year =
              Except.error (ParseFileError.scan ScanError.noCategories)))) := by
  constructor
  · intro wb year sheet hvy hwb hnew
    have hred : parse_excel_file wb year =
        (match parse_hovedark_format sheet year with
         | Except.error e => Except.error (ParseFileError.scan e)
         | Except.ok pd => Except.ok pd) := by
      unfold parse_excel_file
      rw [hvy, hwb]
      simp only [Bool.not_true, Bool.false_eq_true, if_false]
      rw [if_pos hnew]
    refine ⟨?_, ?_, ?_⟩
    · intro h1
      rcases hfs : findSectionRowsHovedark sheet with ⟨o1, o2⟩
      rw [hfs] at h1
      simp only at h1
      subst h1
      have : parse_hovedark_format sheet year = Except.error ScanError.noUtgifterMarker := by
        unfold parse_hovedark_format
        rw [hfs]
      rw [hred, this]
    · intro u hfs
      have : parse_hovedark_format sheet year = Except.error ScanError.noInntekterMarker := by
        unfold parse_hovedark_format
        rw [hfs]
      rw [hred, this]
    · intro u i hfs hall
      have : parse_hovedark_format sheet year = Except.error ScanError.noCategories := by
        have hred2 : parse_hovedark_format sheet year =
            (match hovedarkScan sheet u i rowRange with
             | Except.error e => Except.error e
             | Except.ok cats =>
               if cats.isEmpty then Except.error ScanError.noCategories
               else Except.ok { year := year, sheet_categories := cats }) := by
          unfold parse_hovedark_format
          rw [hfs]
        rw [hred2, hovedarkScan_all_none hall]
        rfl
      rw [hred, this]
  · intro wb year hvy hdisp
    have hred : parse_excel_file wb year =
        (match parse_original_format wb.active year with
         | Except.error e => Except.error (ParseFileError.scan e)
         | Except.ok pd => Except.ok pd) := by
      unfold parse_excel_file
      rw [hvy]
      simp only [Bool.not_true, Bool.false_eq_true, if_false]
      rcases hdisp with hnone | ⟨sheet, hsome, hold⟩
      · rw [hnone]
      · rw [hsome]
        show (if isNewFormat sheet = true then
                (match parse_hovedark_format sheet year with
                 | Except.error e => Except.error (ParseFileError.scan e)
                 | Except.ok pd => Except.ok pd)
              else
                (match parse_original_format wb.active year with
                 | Except.error e => Except.error (ParseFileError.scan e)
                 | Except.ok pd => Except.ok pd)) =
            (match parse_original_format wb.active year with
             | Except.error e => Except.error (ParseFileError.scan e)
             | Except.ok pd => Except.ok pd)
        rw [hold]
        simp
    constructor
    · intro h1
      rw [hred, parse_original_noUtgifter h1]
    · intro u hu hin hex
      rw [hred, parse_original_noCategories hu hin hex]

/-- C8 (witness): a new-format workbook without an Utgifter marker row
fails the parse with the missing-marker error. -/
theorem claim_C8_witness :
    parse_excel_file noMarkerWorkbook 2024 =
      Except.error (ParseFileError.scan ScanError.noUtgifterMarker) :=
  (claim_C8.1 noMarkerWorkbook 2024 (sheetOfCells [(1, 4, "Budsjett")])
    (by decide) rfl (by decide)).1 (by decide)

/-- Every amount the Hovedark budget loop records is positive. -/
theorem extractBudgetHovedarkGo_pos {sheet : Sheet} {row : Nat} :
    ∀ {cols : List (Nat × Nat)} {acc : List (Nat × Int)},
      (∀ bm ∈ acc, 0 < bm.2) →
      ∀ bm ∈ extractBudgetHovedarkGo sheet row acc cols, 0 < bm.2 := by
  intro cols
  induction cols with
  | nil =>
    intro acc hacc bm hbm
    simp only [extractBudgetHovedarkGo] at hbm
    exact hacc bm hbm
  | cons cm cols ih =>
    intro acc hacc bm hbm
    simp only [extractBudgetHovedarkGo] at hbm
    split at hbm
    · split at hbm
      · exact ih hacc bm hbm
      · rename_i amounts hok
        split at hbm
        · exact ih hacc bm hbm
        · split at hbm
          · exact ih hacc bm hbm
          · rename_i hsum0
            refine ih ?_ bm hbm
            intro x hx
            rcases List.mem_append.mp hx with h1 | h2
            · exact hacc x h1
            · have hx2 : x = (cm.2, amounts.sum) := by simpa using h2
              subst hx2
              have hnn : ∀ v ∈ amounts, 0 ≤ v := extract_amounts_nonneg hok
              have hge : 0 ≤ amounts.sum := List.sum_nonneg hnn
              have hne : amounts.sum ≠ 0 := by
                intro hc
                exact hsum0 (by rw [hc]; rfl)
              simp only []
              omega
    · exact ih hacc bm hbm

/-- Every amount in a Hovedark budget extraction is positive. -/
theorem extractBudgetHovedark_pos {sheet : Sheet} {row : Nat} :
    ∀ bm ∈ extractBudgetHovedark sheet row, 0 < bm.2 :=
  extractBudgetHovedarkGo_pos (by intro bm h; simp at h)

/-- Every category a successful Hovedark scan returns was emitted by
some scanned row. -/
theorem hovedarkScan_mem {sheet : Sheet} {utgRow innRow : Nat} :
    ∀ {rows : List Nat} {l : List ParsedCategory} {c : ParsedCategory},
      hovedarkScan sheet utgRow innRow rows = Except.ok l → c ∈ l →
      ∃ row ∈ rows, hovedarkProcessRow sheet utgRow innRow row = Except.ok (some c) := by
  intro rows
  induction rows with
  | nil =>
    intro l c h hc
    simp only [hovedarkScan, Except.ok.injEq] at h
    subst h
    simp at hc
  | cons r rest ih =>
    intro l c h hc
    simp only [hovedarkScan] at h
    split at h
    · cases h
    · obtain ⟨row, hrow, hp⟩ := ih h hc
      exact ⟨row, List.mem_cons_of_mem _ hrow, hp⟩
    · rename_i c1 hc1
      split at h
      · cases h
      · rename_i cs hcs
        injection h with h
        subst h
        rcases List.mem_cons.mp hc with h1 | h2
        · subst h1
          exact ⟨r, List.mem_cons_self _ _, hc1⟩
        · obtain ⟨row, hrow, hp⟩ := ih hcs h2
          exact ⟨row, List.mem_cons_of_mem _ hrow, hp⟩

/-- C10: the named-sheet parser drops any budget month whose extracted
amounts sum to zero — every budget amount in its output is positive —
whereas the original-format parser records a zero budget amount for a
cell holding the text 0, so the two layouts disagree on whether such a
cell produces a budget entry. -/
theorem claim_C10 :
    (∀ (sheet : Sheet) (year : Int) (pd : ParsedData),
        parse_hovedark_format sheet year = Except.ok pd →
        ∀ cat ∈ pd.sheet_categories, ∀ bm ∈ cat.budget, 0 < bm.2) ∧
    parse_original_format zeroBudgetOriginalSheet 2024 =
      Except.ok { year := 2024, sheet_categories :=
        [{ name := "Mat", type := "expenses", budget := [(1, 0)],
           actuals := [(1, [25])] }] } ∧
    extractBudgetOriginal zeroBudgetOriginalSheet 9 = [(1, 0)] ∧
    extractBudgetHovedark zeroBudgetHovedarkSheet 4 = [] := by
  refine ⟨?_, by decide, by decide, by decide⟩
  intro sheet year pd h cat hcat bm hbm
  unfold parse_hovedark_format at h
  split at h
  · cases h
  · cases h
  · split at h
    · cases h
    · rename_i cats hscan
      split at h
      · cases h
      · injection h with h
        subst h
        obtain ⟨row, _, hp⟩ := hovedarkScan_mem hscan hcat
        have hb := (hovedarkProcessRow_some_shape hp).1
        rw [hb] at hbm
        exact extractBudgetHovedark_pos bm hbm

/-- C10 (witness): positivity at a concrete parsed budget amount. -/
theorem claim_C10_witness : (0 : Int) < 1000 :=
  claim_C10.1 demoHovedarkSheet 2024 demoParsed (by decide)
    { name := "Mat", type := "expenses", budget := [(1, 1000)],
      actuals := [(1, [575, 2182])] } (by decide) (1, 1000) (by decide)

/-! ## Lemmas about the validator -/

/-- The validator fold accumulates exactly the per-category
contributions, in order. -/
theorem validate_fold {db : DB} {year : Int} {mapping : List (String × String)} :
    ∀ (cats : List ParsedCategory) (acc : ValidationAcc),
      cats.foldl (fun acc cat =>
        let s := validateCategoryStep db year mapping cat
        { errors := acc.errors ++ s.errors, warnings := acc.warnings ++ s.warnings,
          budget_count := acc.budget_count + s.budget_count,
          transaction_count := acc.transaction_count + s.transaction_count }) acc =
      { errors := acc.errors ++
          (cats.map (fun c => (validateCategoryStep db year mapping c).errors)).flatten,
        warnings := acc.warnings ++
          (cats.map (fun c => (validateCategoryStep db year mapping c).warnings)).flatten,
        budget_count := acc.budget_count +
          (cats.map (fun c => (validateCategoryStep db year mapping c).budget_count)).sum,
        transaction_count := acc.transaction_count +
          (cats.map (fun c => (validateCategoryStep db year mapping c).transaction_count)).sum } := by
  intro cats
  induction cats with
  | nil => intro acc; simp
  | cons c rest ih =>
    intro acc
    simp only [List.foldl_cons, List.map_cons, List.flatten_cons, List.sum_cons]
    rw [ih]
    simp [List.append_assoc, Nat.add_assoc]

/-- A fully consistent category contributes no issues and its literal
counts. -/
theorem validateCategoryStep_consistent {db : DB} {year : Int}
    {mapping : List (String × String)} {cat : ParsedCategory} {cid : String}
    {category : Category} (h1 : lookupMapping mapping cat.name = some cid)
    (h2 : get_category_by_id db cid = some category) (h3 : category.type = cat.type) :
    (validateCategoryStep db year mapping cat).errors = [] ∧
    (validateCategoryStep db year mapping cat).budget_count = cat.budget.length ∧
    (validateCategoryStep db year mapping cat).transaction_count =
      (cat.actuals.map (fun a => a.2.length)).sum := by
  have hbeq : (category.type == cat.type) = true := beq_iff_eq.mpr h3
  simp [validateCategoryStep, h1, h2, hbeq]

/-- C2: the validator mutates nothing (it is a pure function of the
store) and returns valid exactly when its error list is empty, warnings
never affecting validity; an unmapped, unresolvable or type-mismatched
category contributes exactly one error and nothing else — its remaining
checks are skipped — while the other categories are still validated and
all contributions accumulate in order; and for a fully consistent
mapping the budget count is the number of category-month pairs with a
budget figure and the transaction count the total number of bundled
actual amounts. -/
theorem claim_C2 :
    (∀ db parsed mapping,
        ((validate_import db parsed mapping).valid = true ↔
          (validate_import db parsed mapping).errors = [])) ∧
    (∀ db year mapping cat,
        (lookupMapping mapping cat.name = none →
          validateCategoryStep db year mapping cat =
            { errors := [ValidationIssue.notMapped cat.name], warnings := [],
              budget_count := 0, transaction_count := 0 }) ∧
        (∀ cid, lookupMapping mapping cat.name = some cid →
          get_category_by_id db cid = none →
          validateCategoryStep db year mapping cat =
            { errors := [ValidationIssue.mappedCategoryMissing cat.name cid],
              warnings := [], budget_count := 0, transaction_count := 0 }) ∧
        (∀ cid category, lookupMapping mapping cat.name = some cid →
          get_category_by_id db cid = some category →
          category.type ≠ cat.type →
          validateCategoryStep db year mapping cat =
            { errors := [ValidationIssue.typeMismatch cat.name cat.type category.type],
              warnings := [], budget_count := 0, transaction_count := 0 })) ∧
    (∀ db parsed mapping,
        (validate_import db parsed mapping).errors =
          (parsed.sheet_categories.map
            (fun c => (validateCategoryStep db parsed.year mapping c).errors)).flatten ∧
        (validate_import db parsed mapping).warnings =
          (parsed.sheet_categories.map
            (fun c => (validateCategoryStep db parsed.year mapping c).warnings)).flatten ∧
        (validate_import db parsed mapping).budget_count =
          (parsed.sheet_categories.map
            (fun c => (validateCategoryStep db parsed.year mapping c).budget_count)).sum ∧
        (validate_import db parsed mapping).transaction_count =
          (parsed.sheet_categories.map
            (fun c => (validateCategoryStep db parsed.year mapping c).transaction_count)).sum) ∧
    (∀ db parsed mapping,
        (∀ cat ∈ parsed.sheet_categories, ∃ cid category,
            lookupMapping mapping cat.name = some cid ∧
            get_category_by_id db cid = some category ∧ category.type = cat.type) →
        (validate_import db parsed mapping).errors = [] ∧
        (validate_import db parsed mapping).budget_count = totalBudgetMonths parsed ∧
        (validate_import db parsed mapping).transaction_count = totalActuals parsed) := by
  have hfold : ∀ db parsed mapping,
      validate_import db parsed mapping =
        { valid := ((parsed.sheet_categories.map
              (fun c => (validateCategoryStep db parsed.year mapping c).errors)).flatten).isEmpty,
          errors := (parsed.sheet_categories.map
            (fun c => (validateCategoryStep db parsed.year mapping c).errors)).flatten,
          warnings := (parsed.sheet_categories.map
            (fun c => (validateCategoryStep db parsed.year mapping c).warnings)).flatten,
          budget_count := (parsed.sheet_categories.map
            (fun c => (validateCategoryStep db parsed.year mapping c).budget_count)).sum,
          transaction_count := (parsed.sheet_categories.map
            (fun c => (validateCategoryStep db parsed.year mapping c).transaction_count)).sum } := by
    intro db parsed mapping
    unfold validate_import
    rw [validate_fold]
    simp
  refine ⟨?_, ?_, ?_, ?_⟩
  · intro db parsed mapping
    rw [hfold]
    simp [List.isEmpty_iff]
  · intro db year mapping cat
    refine ⟨?_, ?_, ?_⟩
    · intro h
      simp [validateCategoryStep, h]
    · intro cid h1 h2
      simp [validateCategoryStep, h1, h2]
    · intro cid category h1 h2 h3
      have hbeq : (category.type == cat.type) = false := by
        cases hc : category.type == cat.type
        · rfl
        · exact absurd (beq_iff_eq.mp hc) h3
      simp [validateCategoryStep, h1, h2, hbeq]
  · intro db parsed mapping
    rw [hfold]
    exact ⟨rfl, rfl, rfl, rfl⟩
  · intro db parsed mapping hcons
    rw [hfold]
    have herr : (parsed.sheet_categories.map
        (fun c => (validateCategoryStep db parsed.year mapping c).errors)) =
        parsed.sheet_categories.map (fun _ => ([] : List ValidationIssue)) := by
      refine List.map_congr_left ?_
      intro cat hcat
      obtain ⟨cid, category, h1, h2, h3⟩ := hcons cat hcat
      exact (validateCategoryStep_consistent h1 h2 h3).1
    have hbud : (parsed.sheet_categories.map
        (fun c => (validateCategoryStep db parsed.year mapping c).budget_count)) =
        parsed.sheet_categories.map (fun c => c.budget.length) := by
      refine List.map_congr_left ?_
      intro cat hcat
      obtain ⟨cid, category, h1, h2, h3⟩ := hcons cat hcat
      exact (validateCategoryStep_consistent h1 h2 h3).2.1
    have htr : (parsed.sheet_categories.map
        (fun c => (validateCategoryStep db parsed.year mapping c).transaction_count)) =
        parsed.sheet_categories.map (fun c => (c.actuals.map (fun a => a.2.length)).sum) := by
      refine List.map_congr_left ?_
      intro cat hcat
      obtain ⟨cid, category, h1, h2, h3⟩ := hcons cat hcat
      exact (validateCategoryStep_consistent h1 h2 h3).2.2
    refine ⟨?_, ?_, ?_⟩
    · simp [herr]
    · simp [hbud, totalBudgetMonths]
    · simp [htr, totalActuals]

/-- C2 (witness): the validator on the demo store, parse and mapping. -/
theorem claim_C2_witness :
    (validate_import demoDB demoParsed demoMapping).errors = [] ∧
    (validate_import demoDB demoParsed demoMapping).budget_count =
      totalBudgetMonths demoParsed ∧
    (validate_import demoDB demoParsed demoMapping).transaction_count =
      totalActuals demoParsed := by
  refine claim_C2.2.2.2 demoDB demoParsed demoMapping ?_
  intro cat hcat
  simp only [demoParsed, List.mem_cons, List.not_mem_nil, or_false] at hcat
  rcases hcat with rfl | rfl
  · exact ⟨"c1", { id := "c1", name := "Mat", type := "expenses" }, by decide, by decide, rfl⟩
  · exact ⟨"c2", { id := "c2", name := "Lonn", type := "income" }, by decide, by decide, rfl⟩

/-! ## Lemmas about the import executor -/

/-- Counting with extensionally equal predicates agrees. -/
theorem countP_congr_mem {α : Type} {l : List α} {p q : α → Bool}
    (h : ∀ a ∈ l, p a = q a) : l.countP p = l.countP q := by
  induction l with
  | nil => rfl
  | cons a rest ih =>
    simp only [List.countP_cons, h a (List.mem_cons_self _ _),
      ih (fun x hx => h x (List.mem_cons_of_mem _ hx))]

/-- The upsert never touches the template table. -/
theorem upsert_templates (db : DB) (e : BudgetEntry) :
    (create_or_update_budget_entry db e).budget_templates = db.budget_templates := by
  unfold create_or_update_budget_entry
  split <;> rfl

/-- The upsert never touches the transaction table. -/
theorem upsert_transactions (db : DB) (e : BudgetEntry) :
    (create_or_update_budget_entry db e).transactions = db.transactions := by
  unfold create_or_update_budget_entry
  split <;> rfl

/-- The budget loop never touches the template table. -/
theorem runBudgetImports_templates (categoryId : String) (year : Int) (now : String) :
    ∀ (bms : List (Nat × Int)) (db : DB),
      (runBudgetImports categoryId year now bms db).1.budget_templates =
        db.budget_templates := by
  intro bms
  induction bms with
  | nil => intro db; rfl
  | cons bm rest ih =>
    intro db
    simp only [runBudgetImports]
    rw [ih, upsert_templates]
    rfl

/-- The budget loop never touches the transaction table. -/
theorem runBudgetImports_transactions (categoryId : String) (year : Int) (now : String) :
    ∀ (bms : List (Nat × Int)) (db : DB),
      (runBudgetImports categoryId year now bms db).1.transactions = db.transactions := by
  intro bms
  induction bms with
  | nil => intro db; rfl
  | cons bm rest ih =>
    intro db
    simp only [runBudgetImports]
    rw [ih, upsert_transactions]
    rfl

/-- The inner transaction loop never touches budget entries or
templates, and appends exactly one transaction per amount. -/
theorem runTransactionAmounts_state (categoryId payeeId : String) (year : Int)
    (month : Nat) (now : String) :
    ∀ (amounts : List Int) (db : DB),
      (runTransactionAmounts categoryId payeeId year month now amounts db).1.budget_entries =
        db.budget_entries ∧
      (runTransactionAmounts categoryId payeeId year month now amounts db).1.budget_templates =
        db.budget_templates ∧
      (runTransactionAmounts categoryId payeeId year month now amounts db).1.transactions.length =
        db.transactions.length + amounts.length := by
  intro amounts
  induction amounts with
  | nil => intro db; exact ⟨rfl, rfl, rfl⟩
  | cons a rest ih =>
    intro db
    simp only [runTransactionAmounts]
    obtain ⟨h1, h2, h3⟩ := ih ((create_transaction (generate_uid db).2
      { id := (generate_uid db).1, category_id := categoryId, payee_id := payeeId,
        date := mkDateString year month, amount := a, comment := none,
        created_at := now, updated_at := now }))
    refine ⟨h1, h2, ?_⟩
    rw [h3]
    simp only [create_transaction, generate_uid, List.length_append, List.length_cons]
    simp [List.length_append]
    omega

/-- The outer transaction loop: same invariants, with the bundled
count summed over months. -/
theorem runTransactionImports_state (categoryId payeeId : String) (year : Int)
    (now : String) :
    ∀ (mas : List (Nat × List Int)) (db : DB),
      (runTransactionImports categoryId payeeId year now mas db).1.budget_entries =
        db.budget_entries ∧
      (runTransactionImports categoryId payeeId year now mas db).1.budget_templates =
        db.budget_templates ∧
      (runTransactionImports categoryId payeeId year now mas db).1.transactions.length =
        db.transactions.length + (mas.map (fun a => a.2.length)).sum := by
  intro mas
  induction mas with
  | nil => intro db; exact ⟨rfl, rfl, rfl⟩
  | cons ma rest ih =>
    intro db
    simp only [runTransactionImports]
    obtain ⟨g1, g2, g3⟩ := runTransactionAmounts_state categoryId payeeId year ma.1 now ma.2 db
    obtain ⟨h1, h2, h3⟩ := ih (runTransactionAmounts categoryId payeeId year ma.1 now ma.2 db).1
    refine ⟨by rw [h1, g1], by rw [h2, g2], ?_⟩
    rw [h3, g3]
    simp [List.map_cons, List.sum_cons]
    omega

/-- The per-category loop never touches the template table, and appends
exactly the bundled actual amounts to the transaction table. -/
theorem runCategoryImports_state (mapping : List (String × String)) (year : Int)
    (payeeId : String) (now : String) :
    ∀ (cats : List ParsedCategory) (db : DB),
      (runCategoryImports mapping year payeeId now cats db).1.budget_templates =
        db.budget_templates ∧
      (runCategoryImports mapping year payeeId now cats db).1.transactions.length =
        db.transactions.length +
          (cats.map (fun c => (c.actuals.map (fun a => a.2.length)).sum)).sum := by
  intro cats
  induction cats with
  | nil => intro db; exact ⟨rfl, rfl⟩
  | cons cat rest ih =>
    intro db
    simp only [runCategoryImports]
    obtain ⟨t1, t2, t3⟩ := runTransactionImports_state
      ((lookupMapping mapping cat.name).getD "") payeeId year now cat.actuals
      (runBudgetImports ((lookupMapping mapping cat.name).getD "") year now cat.budget db).1
    obtain ⟨h1, h2⟩ := ih (runTransactionImports ((lookupMapping mapping cat.name).getD "")
      payeeId year now cat.actuals
      (runBudgetImports ((lookupMapping mapping cat.name).getD "") year now cat.budget db).1).1
    refine ⟨?_, ?_⟩
    · rw [h1, t2, runBudgetImports_templates]
    · rw [h2, t3, runBudgetImports_transactions]
      simp only [List.map_cons, List.sum_cons]
      omega

/-- The template loop never touches budget entries or transactions. -/
theorem runTemplatePhase_state (year : Int) (now : String) :
    ∀ (ids : List String) (db : DB),
      (runTemplatePhase year now ids db).1.budget_entries = db.budget_entries ∧
      (runTemplatePhase year now ids db).1.transactions = db.transactions := by
  intro ids
  induction ids with
  | nil => intro db; exact ⟨rfl, rfl⟩
  | cons cid rest ih =>
    intro db
    simp only [runTemplatePhase]
    split
    · exact ih db
    · obtain ⟨h1, h2⟩ := ih (create_budget_template (generate_uid db).2
        { id := (generate_uid db).1, year := year, category_id := cid, created_at := now })
      exact ⟨h1, h2⟩

/-- The payee bootstrap never touches budget entries, templates or
transactions. -/
theorem ensure_import_payee_state (db : DB) (now : String) :
    (ensure_import_payee db now).2.budget_entries = db.budget_entries ∧
    (ensure_import_payee db now).2.budget_templates = db.budget_templates ∧
    (ensure_import_payee db now).2.transactions = db.transactions := by
  unfold ensure_import_payee
  split <;> exact ⟨rfl, rfl, rfl⟩

/-- A fresh id draw does not affect template existence. -/
theorem template_exists_uid (db : DB) (y : Int) (cid : String) :
    budget_template_exists (generate_uid db).2 y cid = budget_template_exists db y cid := rfl

/-- Template existence after an insertion. -/
theorem template_exists_create (db : DB) (t : BudgetTemplate) (y : Int) (cid : String) :
    budget_template_exists (create_budget_template db t) y cid =
      (budget_template_exists db y cid || (t.year == y && t.category_id == cid)) := by
  unfold budget_template_exists create_budget_template
  simp [List.any_append]

/-- Template existence for a different category id is unaffected by an
insertion. -/
theorem template_exists_other {db : DB} {t : BudgetTemplate} {y : Int}
    {cid : String} (h : cid ≠ t.category_id) :
    budget_template_exists (create_budget_template db t) y cid =
      budget_template_exists db y cid := by
  rw [template_exists_create]
  have hb : (t.category_id == cid) = false := by
    cases hc : t.category_id == cid
    · rfl
    · exact absurd (beq_iff_eq.mp hc).symm h
  simp [hb]

/-- The template loop preserves existing memberships. -/
theorem runTemplatePhase_preserve {year : Int} {now : String} :
    ∀ {ids : List String} {db : DB} {y : Int} {cid : String},
      budget_template_exists db y cid = true →
      budget_template_exists (runTemplatePhase year now ids db).1 y cid = true := by
  intro ids
  induction ids with
  | nil => intro db y cid h; exact h
  | cons c rest ih =>
    intro db y cid h
    simp only [runTemplatePhase]
    split
    · exact ih h
    · refine ih ?_
      rw [template_exists_create, template_exists_uid]
      simp [h]

/-- After the template loop, every processed id has a membership for the
loop year. -/
theorem runTemplatePhase_ensures {year : Int} {now : String} :
    ∀ {ids : List String} {db : DB} {cid : String}, cid ∈ ids →
      budget_template_exists (runTemplatePhase year now ids db).1 year cid = true := by
  intro ids
  induction ids with
  | nil => intro db cid h; simp at h
  | cons c rest ih =>
    intro db cid h
    simp only [runTemplatePhase]
    rcases List.mem_cons.mp h with h1 | h2
    · subst h1
      split
      · rename_i hex
        exact runTemplatePhase_preserve hex
      · refine runTemplatePhase_preserve ?_
        rw [template_exists_create]
        simp
    · split
      · exact ih h2
      · exact ih h2

/-- The template loop creates exactly one membership per processed id
that had none, as counted against the state it started from. -/
theorem runTemplatePhase_count {year : Int} {now : String} :
    ∀ {ids : List String} {db : DB}, ids.Nodup →
      (runTemplatePhase year now ids db).2 =
        ids.countP (fun cid => !(budget_template_exists db year cid)) := by
  intro ids
  induction ids with
  | nil => intro db _; rfl
  | cons c rest ih =>
    intro db hnd
    have hnotmem : c ∉ rest := (List.nodup_cons.mp hnd).1
    have hndr : rest.Nodup := (List.nodup_cons.mp hnd).2
    simp only [runTemplatePhase, List.countP_cons]
    split
    · rename_i hex
      rw [ih hndr]
      simp [hex]
    · rename_i hnex
      have hnexb : budget_template_exists db year c = false := by
        cases hc : budget_template_exists db year c
        · rfl
        · exact absurd hc hnex
      rw [ih hndr]
      have hsame : rest.countP (fun cid => !(budget_template_exists
          (create_budget_template (generate_uid db).2
            { id := (generate_uid db).1, year := year, category_id := c,
              created_at := now }) year cid)) =
          rest.countP (fun cid => !(budget_template_exists db year cid)) := by
        refine countP_congr_mem ?_
        intro cid hcid
        have hne : cid ≠ c := fun hc => hnotmem (hc ▸ hcid)
        rw [template_exists_other hne, template_exists_uid]
      rw [hsame]
      simp [hnexb]

/-- The template table grows by exactly the creation count. -/
theorem runTemplatePhase_length {year : Int} {now : String} :
    ∀ (ids : List String) (db : DB),
      (runTemplatePhase year now ids db).1.budget_templates.length =
        db.budget_templates.length + (runTemplatePhase year now ids db).2 := by
  intro ids
  induction ids with
  | nil => intro db; rfl
  | cons c rest ih =>
    intro ddb
    simp only [runTemplatePhase]
    split
    · exact ih ddb
    · rw [ih]
      simp [create_budget_template, generate_uid]
      omega

/-- A mapped category id is among the distinct mapped ids. -/
theorem mem_uniqueCategoryIds {mapping : List (String × String)} {name cid : String}
    (h : lookupMapping mapping name = some cid) : cid ∈ uniqueCategoryIds mapping := by
  unfold lookupMapping at h
  cases hf : mapping.find? (fun p => p.1 == name) with
  | none => rw [hf] at h; cases h
  | some p =>
    rw [hf] at h
    injection h with h
    subst h
    exact List.mem_dedup.mpr (List.mem_map_of_mem _ (List.mem_of_find?_eq_some hf))

/-- C5: after the executor has written all budget entries and
transactions it ensures, for every distinct category touched by the
import, that a budget-template membership exists for (year, category),
creating one only when none exists, and its returned template count is
the number of memberships newly created in this run. -/
theorem claim_C5 (db : DB) (parsed : ParsedData) (mapping : List (String × String))
    (now : String) :
    (∀ cat ∈ parsed.sheet_categories, ∀ cid,
        lookupMapping mapping cat.name = some cid →
        budget_template_exists (executeImport db parsed mapping now).1 parsed.year cid =
          true) ∧
    (executeImport db parsed mapping now).2.template_count =
      (uniqueCategoryIds mapping).countP
        (fun cid => !(budget_template_exists db parsed.year cid)) ∧
    (executeImport db parsed mapping now).1.budget_templates.length =
      db.budget_templates.length + (executeImport db parsed mapping now).2.template_count := by
  have hpre : (runCategoryImports mapping parsed.year (ensure_import_payee db now).1 now
      parsed.sheet_categories (ensure_import_payee db now).2).1.budget_templates =
      db.budget_templates := by
    rw [(runCategoryImports_state mapping parsed.year (ensure_import_payee db now).1 now
      parsed.sheet_categories (ensure_import_payee db now).2).1,
      (ensure_import_payee_state db now).2.1]
  have hex_eq : ∀ (y : Int) (cid : String),
      budget_template_exists (runCategoryImports mapping parsed.year
        (ensure_import_payee db now).1 now parsed.sheet_categories
        (ensure_import_payee db now).2).1 y cid =
      budget_template_exists db y cid := by
    intro y cid
    unfold budget_template_exists
    rw [hpre]
  have hfst : (executeImport db parsed mapping now).1 =
      (runTemplatePhase parsed.year now (uniqueCategoryIds mapping)
        (runCategoryImports mapping parsed.year (ensure_import_payee db now).1 now
          parsed.sheet_categories (ensure_import_payee db now).2).1).1 := rfl
  have hcnt : (executeImport db parsed mapping now).2.template_count =
      (runTemplatePhase parsed.year now (uniqueCategoryIds mapping)
        (runCategoryImports mapping parsed.year (ensure_import_payee db now).1 now
          parsed.sheet_categories (ensure_import_payee db now).2).1).2 := rfl
  refine ⟨?_, ?_, ?_⟩
  · intro cat hcat cid hlk
    rw [hfst]
    exact runTemplatePhase_ensures (mem_uniqueCategoryIds hlk)
  · have hnd : (uniqueCategoryIds mapping).Nodup := List.nodup_dedup _
    rw [hcnt, runTemplatePhase_count hnd]
    refine countP_congr_mem ?_
    intro cid _
    rw [hex_eq]
  · rw [hfst, hcnt, runTemplatePhase_length, hpre]

/-- C5 (witness): the touched demo categories end with memberships and
the creation count matches. -/
theorem claim_C5_witness :
    budget_template_exists (executeImport demoDB demoParsed demoMapping "t").1 2024 "c1" =
      true ∧
    (executeImport demoDB demoParsed demoMapping "t").2.template_count =
      (uniqueCategoryIds demoMapping).countP
        (fun cid => !(budget_template_exists demoDB 2024 cid)) :=
  ⟨(claim_C5 demoDB demoParsed demoMapping "t").1
      { name := "Mat", type := "expenses", budget := [(1, 1000)],
        actuals := [(1, [575, 2182])] } (by decide) "c1" (by decide),
   (claim_C5 demoDB demoParsed demoMapping "t").2.1⟩

/-- Replacing the first match with a key-preserving update leaves every
key count unchanged. -/
theorem countP_updateFirstMatching (p q : BudgetEntry → Bool)
    (f : BudgetEntry → BudgetEntry) (hpf : ∀ b, p (f b) = p b) :
    ∀ l : List BudgetEntry, (updateFirstMatching q f l).countP p = l.countP p := by
  intro l
  induction l with
  | nil => rfl
  | cons b rest ih =>
    unfold updateFirstMatching
    by_cases hq : q b = true
    · rw [if_pos hq]
      simp [List.countP_cons, hpf b]
    · rw [if_neg hq]
      simp [List.countP_cons, ih]

/-- Replacing the first match preserves the table length. -/
theorem length_updateFirstMatching (q : BudgetEntry → Bool) (f : BudgetEntry → BudgetEntry) :
    ∀ l : List BudgetEntry, (updateFirstMatching q f l).length = l.length := by
  intro l
  induction l with
  | nil => rfl
  | cons b rest ih =>
    unfold updateFirstMatching
    by_cases hq : q b = true
    · rw [if_pos hq]
      rfl
    · rw [if_neg hq]
      simp [ih]

/-- Key matching spelled out. -/
theorem matchBudgetKey_iff {cid : String} {y : Int} {m : Nat} {b : BudgetEntry} :
    matchBudgetKey cid y m b = true ↔ b.category_id = cid ∧ b.year = y ∧ b.month = m := by
  unfold matchBudgetKey
  simp [Bool.and_eq_true, and_assoc]

/-- The upsert grows a key count exactly when the upserted key had no
row, and then only for that key. -/
theorem upsert_count (db : DB) (e : BudgetEntry) (cid : String) (y : Int) (m : Nat) :
    countBudgetKey (create_or_update_budget_entry db e) cid y m =
      if matchBudgetKey cid y m e = true ∧
          countBudgetKey db e.category_id e.year e.month = 0
      then countBudgetKey db cid y m + 1
      else countBudgetKey db cid y m := by
  unfold create_or_update_budget_entry
  cases hf : db.budget_entries.find? (matchBudgetKey e.category_id e.year e.month) with
  | some b0 =>
    have hkey : countBudgetKey db e.category_id e.year e.month ≠ 0 := by
      have hpos : 0 < db.budget_entries.countP (matchBudgetKey e.category_id e.year e.month) :=
        List.countP_pos_iff.mpr ⟨b0, List.mem_of_find?_eq_some hf, List.find?_some hf⟩
      unfold countBudgetKey
      omega
    rw [if_neg (fun hc => hkey hc.2)]
    unfold countBudgetKey
    show (updateFirstMatching (matchBudgetKey e.category_id e.year e.month)
        (fun b => { b with amount := e.amount, comment := e.comment,
                           updated_at := e.updated_at })
        db.budget_entries).countP (matchBudgetKey cid y m) =
      db.budget_entries.countP (matchBudgetKey cid y m)
    exact countP_updateFirstMatching (matchBudgetKey cid y m)
      (matchBudgetKey e.category_id e.year e.month)
      (fun b => { b with amount := e.amount, comment := e.comment,
                         updated_at := e.updated_at })
      (fun b => rfl) db.budget_entries
  | none =>
    have hkey : countBudgetKey db e.category_id e.year e.month = 0 := by
      unfold countBudgetKey
      rw [List.countP_eq_zero]
      intro a ha
      simpa using List.find?_eq_none.mp hf a ha
    unfold countBudgetKey
    show (db.budget_entries ++ [e]).countP (matchBudgetKey cid y m) = _
    rw [List.countP_append]
    by_cases hm : matchBudgetKey cid y m e = true
    · rw [if_pos ⟨hm, hkey⟩]
      simp [List.countP_cons, hm]
    · rw [if_neg (fun hc => hm hc.1)]
      have hm' : matchBudgetKey cid y m e = false := by
        cases hc : matchBudgetKey cid y m e
        · rfl
        · exact absurd hc hm
      simp [List.countP_cons, hm']

/-- The upsert never lowers a key count. -/
theorem upsert_count_mono (db : DB) (e : BudgetEntry) (cid : String) (y : Int) (m : Nat) :
    countBudgetKey db cid y m ≤
      countBudgetKey (create_or_update_budget_entry db e) cid y m := by
  rw [upsert_count]
  split <;> omega

/-- The upsert inserts a row exactly when its key had none. -/
theorem upsert_length (db : DB) (e : BudgetEntry) :
    (create_or_update_budget_entry db e).budget_entries.length =
      if countBudgetKey db e.category_id e.year e.month = 0
      then db.budget_entries.length + 1 else db.budget_entries.length := by
  unfold create_or_update_budget_entry
  cases hf : db.budget_entries.find? (matchBudgetKey e.category_id e.year e.month) with
  | some b0 =>
    have hkey : countBudgetKey db e.category_id e.year e.month ≠ 0 := by
      have hpos : 0 < db.budget_entries.countP (matchBudgetKey e.category_id e.year e.month) :=
        List.countP_pos_iff.mpr ⟨b0, List.mem_of_find?_eq_some hf, List.find?_some hf⟩
      unfold countBudgetKey
      omega
    rw [if_neg hkey]
    exact length_updateFirstMatching _ _ db.budget_entries
  | none =>
    have hkey : countBudgetKey db e.category_id e.year e.month = 0 := by
      unfold countBudgetKey
      rw [List.countP_eq_zero]
      intro a ha
      simpa using List.find?_eq_none.mp hf a ha
    rw [if_pos hkey]
    simp

/-- A fresh id draw does not affect key counts. -/
theorem countBudgetKey_uid (db : DB) (cid : String) (y : Int) (m : Nat) :
    countBudgetKey (generate_uid db).2 cid y m = countBudgetKey db cid y m := rfl

/-- Equal entry tables give equal key counts. -/
theorem countBudgetKey_of_entries_eq {db db' : DB}
    (h : db.budget_entries = db'.budget_entries) (cid : String) (y : Int) (m : Nat) :
    countBudgetKey db cid y m = countBudgetKey db' cid y m := by
  unfold countBudgetKey
  rw [h]

/-- The budget loop for one category: a written key count becomes one
when it was zero and is otherwise unchanged; unwritten keys are
untouched. -/
theorem runBudgetImports_count (categoryId : String) (year : Int) (now : String) :
    ∀ (bms : List (Nat × Int)) (db : DB) (cid : String) (y : Int) (m : Nat),
      ((∃ bm ∈ bms, categoryId = cid ∧ year = y ∧ bm.1 = m) →
        countBudgetKey (runBudgetImports categoryId year now bms db).1 cid y m =
          (if countBudgetKey db cid y m = 0 then 1 else countBudgetKey db cid y m)) ∧
      (¬(∃ bm ∈ bms, categoryId = cid ∧ year = y ∧ bm.1 = m) →
        countBudgetKey (runBudgetImports categoryId year now bms db).1 cid y m =
          countBudgetKey db cid y m) := by
  intro bms
  induction bms with
  | nil =>
    intro db cid y m
    refine ⟨fun h => ?_, fun _ => rfl⟩
    simp at h
  | cons bm rest ih =>
    intro db cid y m
    simp only [runBudgetImports]
    set db1 := create_or_update_budget_entry (generate_uid db).2
      { id := (generate_uid db).1, category_id := categoryId, year := year, month := bm.1,
        amount := bm.2, comment := none, created_at := now, updated_at := now } with hdb1
    have hup := upsert_count (generate_uid db).2
      { id := (generate_uid db).1, category_id := categoryId, year := year, month := bm.1,
        amount := bm.2, comment := none, created_at := now, updated_at := now } cid y m
    rw [countBudgetKey_uid, countBudgetKey_uid, ← hdb1] at hup
    by_cases hP : categoryId = cid ∧ year = y ∧ bm.1 = m
    · obtain ⟨hc, hy, hm⟩ := hP
      subst hc
      subst hy
      subst hm
      have hmk : matchBudgetKey categoryId year bm.1
          { id := (generate_uid db).1, category_id := categoryId, year := year,
            month := bm.1, amount := bm.2, comment := none, created_at := now,
            updated_at := now } = true := by
        exact matchBudgetKey_iff.mpr ⟨rfl, rfl, rfl⟩
      constructor
      · intro _
        by_cases hz : countBudgetKey db categoryId year bm.1 = 0
        · rw [if_pos hz]
          rw [if_pos ⟨hmk, hz⟩] at hup
          rw [hz] at hup
          by_cases hR : ∃ bm' ∈ rest, categoryId = categoryId ∧ year = year ∧ bm'.1 = bm.1
          · have := (ih db1 categoryId year bm.1).1 hR
            rw [this, hup]
            simp
          · have := (ih db1 categoryId year bm.1).2 hR
            rw [this, hup]
        · rw [if_neg hz]
          rw [if_neg (fun hc => hz hc.2)] at hup
          by_cases hR : ∃ bm' ∈ rest, categoryId = categoryId ∧ year = year ∧ bm'.1 = bm.1
          · have := (ih db1 categoryId year bm.1).1 hR
            rw [this, hup]
            simp [hz]
          · have := (ih db1 categoryId year bm.1).2 hR
            rw [this, hup]
      · intro hn
        exact absurd ⟨bm, List.mem_cons_self _ _, rfl, rfl, rfl⟩ hn
    · have hmk : matchBudgetKey cid y m
          { id := (generate_uid db).1, category_id := categoryId, year := year,
            month := bm.1, amount := bm.2, comment := none, created_at := now,
            updated_at := now } ≠ true := by
        intro hc
        have hc2 := matchBudgetKey_iff.mp hc
        exact hP ⟨hc2.1, hc2.2.1, hc2.2.2⟩
      rw [if_neg (fun hc => hmk hc.1)] at hup
      constructor
      · intro hW
        have hR : ∃ bm' ∈ rest, categoryId = cid ∧ year = y ∧ bm'.1 = m := by
          obtain ⟨bm', hmem, hcond⟩ := hW
          rcases List.mem_cons.mp hmem with h1 | h2
          · subst h1
            exact absurd hcond hP
          · exact ⟨bm', h2, hcond⟩
        have := (ih db1 cid y m).1 hR
        rw [this, hup]
      · intro hn
        have hR : ¬(∃ bm' ∈ rest, categoryId = cid ∧ year = y ∧ bm'.1 = m) := by
          intro ⟨bm', hmem, hcond⟩
          exact hn ⟨bm', List.mem_cons_of_mem _ hmem, hcond⟩
        have := (ih db1 cid y m).2 hR
        rw [this, hup]

/-- The budget loop never lowers a key count. -/
theorem runBudgetImports_count_mono (categoryId : String) (year : Int) (now : String) :
    ∀ (bms : List (Nat × Int)) (db : DB) (cid : String) (y : Int) (m : Nat),
      countBudgetKey db cid y m ≤
        countBudgetKey (runBudgetImports categoryId year now bms db).1 cid y m := by
  intro bms
  induction bms with
  | nil => intro db cid y m; exact le_refl _
  | cons bm rest ih =>
    intro db cid y m
    simp only [runBudgetImports]
    refine le_trans ?_ (ih _ cid y m)
    have := upsert_count_mono (generate_uid db).2
      { id := (generate_uid db).1, category_id := categoryId, year := year, month := bm.1,
        amount := bm.2, comment := none, created_at := now, updated_at := now } cid y m
    rw [countBudgetKey_uid] at this
    exact this

/-- When every written key already has a row, the budget loop inserts
nothing. -/
theorem runBudgetImports_length (categoryId : String) (year : Int) (now : String) :
    ∀ (bms : List (Nat × Int)) (db : DB),
      (∀ bm ∈ bms, countBudgetKey db categoryId year bm.1 ≠ 0) →
      (runBudgetImports categoryId year now bms db).1.budget_entries.length =
        db.budget_entries.length := by
  intro bms
  induction bms with
  | nil => intro db _; rfl
  | cons bm rest ih =>
    intro db h
    simp only [runBudgetImports]
    have hlen := upsert_length (generate_uid db).2
      { id := (generate_uid db).1, category_id := categoryId, year := year, month := bm.1,
        amount := bm.2, comment := none, created_at := now, updated_at := now }
    rw [countBudgetKey_uid] at hlen
    rw [if_neg (h bm (List.mem_cons_self _ _))] at hlen
    rw [ih _ ?_]
    · exact hlen
    · intro bm' hmem'
      have hmono := upsert_count_mono (generate_uid db).2
        { id := (generate_uid db).1, category_id := categoryId, year := year, month := bm.1,
          amount := bm.2, comment := none, created_at := now, updated_at := now }
        categoryId year bm'.1
      rw [countBudgetKey_uid] at hmono
      have := h bm' (List.mem_cons_of_mem _ hmem')
      omega

/-- The category loop: a written key count becomes one when it was zero
and is otherwise unchanged; unwritten keys are untouched. -/
theorem runCategoryImports_count (mapping : List (String × String)) (year : Int)
    (payeeId now : String) :
    ∀ (cats : List ParsedCategory) (db : DB) (cid : String) (y : Int) (m : Nat),
      ((∃ cat ∈ cats, ∃ bm ∈ cat.budget,
          (lookupMapping mapping cat.name).getD "" = cid ∧ year = y ∧ bm.1 = m) →
        countBudgetKey (runCategoryImports mapping year payeeId now cats db).1 cid y m =
          (if countBudgetKey db cid y m = 0 then 1 else countBudgetKey db cid y m)) ∧
      (¬(∃ cat ∈ cats, ∃ bm ∈ cat.budget,
          (lookupMapping mapping cat.name).getD "" = cid ∧ year = y ∧ bm.1 = m) →
        countBudgetKey (runCategoryImports mapping year payeeId now cats db).1 cid y m =
          countBudgetKey db cid y m) := by
  intro cats
  induction cats with
  | nil =>
    intro db cid y m
    refine ⟨fun h => ?_, fun _ => rfl⟩
    simp at h
  | cons cat rest ih =>
    intro db cid y m
    simp only [runCategoryImports]
    set dbB := (runBudgetImports ((lookupMapping mapping cat.name).getD "") year now
      cat.budget db).1 with hdbB
    set dbT := (runTransactionImports ((lookupMapping mapping cat.name).getD "") payeeId
      year now cat.actuals dbB).1 with hdbT
    have hTB : countBudgetKey dbT cid y m = countBudgetKey dbB cid y m :=
      countBudgetKey_of_entries_eq
        (runTransactionImports_state _ _ _ _ cat.actuals dbB).1 cid y m
    by_cases hP : ∃ bm ∈ cat.budget,
        (lookupMapping mapping cat.name).getD "" = cid ∧ year = y ∧ bm.1 = m
    · have hB := (runBudgetImports_count ((lookupMapping mapping cat.name).getD "") year
        now cat.budget db cid y m).1 hP
      constructor
      · intro _
        by_cases hR : ∃ cat' ∈ rest, ∃ bm ∈ cat'.budget,
            (lookupMapping mapping cat'.name).getD "" = cid ∧ year = y ∧ bm.1 = m
        · have hrest := (ih dbT cid y m).1 hR
          rw [hrest, hTB, hB]
          by_cases hz : countBudgetKey db cid y m = 0
          · simp [hz]
          · simp [hz]
        · have hrest := (ih dbT cid y m).2 hR
          rw [hrest, hTB, hB]
      · intro hn
        exact absurd ⟨cat, List.mem_cons_self _ _, hP⟩ hn
    · have hB := (runBudgetImports_count ((lookupMapping mapping cat.name).getD "") year
        now cat.budget db cid y m).2 hP
      constructor
      · intro hW
        have hR : ∃ cat' ∈ rest, ∃ bm ∈ cat'.budget,
            (lookupMapping mapping cat'.name).getD "" = cid ∧ year = y ∧ bm.1 = m := by
          obtain ⟨cat', hmem, hcond⟩ := hW
          rcases List.mem_cons.mp hmem with h1 | h2
          · subst h1
            exact absurd hcond hP
          · exact ⟨cat', h2, hcond⟩
        have hrest := (ih dbT cid y m).1 hR
        rw [hrest, hTB, hB]
      · intro hn
        have hR : ¬(∃ cat' ∈ rest, ∃ bm ∈ cat'.budget,
            (lookupMapping mapping cat'.name).getD "" = cid ∧ year = y ∧ bm.1 = m) := by
          intro ⟨cat', hmem, hcond⟩
          exact hn ⟨cat', List.mem_cons_of_mem _ hmem, hcond⟩
        have hrest := (ih dbT cid y m).2 hR
        rw [hrest, hTB, hB]

/-- When every written key already has a row, the category loop inserts
no budget rows. -/
theorem runCategoryImports_length (mapping : List (String × String)) (year : Int)
    (payeeId now : String) :
    ∀ (cats : List ParsedCategory) (db : DB),
      (∀ cat ∈ cats, ∀ bm ∈ cat.budget,
        countBudgetKey db ((lookupMapping mapping cat.name).getD "") year bm.1 ≠ 0) →
      (runCategoryImports mapping year payeeId now cats db).1.budget_entries.length =
        db.budget_entries.length := by
  intro cats
  induction cats with
  | nil => intro db _; rfl
  | cons cat rest ih =>
    intro db h
    simp only [runCategoryImports]
    set dbB := (runBudgetImports ((lookupMapping mapping cat.name).getD "") year now
      cat.budget db).1 with hdbB
    set dbT := (runTransactionImports ((lookupMapping mapping cat.name).getD "") payeeId
      year now cat.actuals dbB).1 with hdbT
    have hlenB : dbB.budget_entries.length = db.budget_entries.length :=
      runBudgetImports_length _ year now cat.budget db
        (fun bm hbm => h cat (List.mem_cons_self _ _) bm hbm)
    have hentT : dbT.budget_entries = dbB.budget_entries :=
      (runTransactionImports_state _ _ _ _ cat.actuals dbB).1
    have hrest : ∀ cat' ∈ rest, ∀ bm ∈ cat'.budget,
        countBudgetKey dbT ((lookupMapping mapping cat'.name).getD "") year bm.1 ≠ 0 := by
      intro cat' hc bm hbm
      have h0 := h cat' (List.mem_cons_of_mem _ hc) bm hbm
      have hmono := runBudgetImports_count_mono ((lookupMapping mapping cat.name).getD "")
        year now cat.budget db ((lookupMapping mapping cat'.name).getD "") year bm.1
      rw [countBudgetKey_of_entries_eq hentT, hdbB]
      omega
    rw [ih dbT hrest, hentT, hlenB]

/-- After one executor run, a written key count is one when it was zero
and unchanged otherwise; unwritten keys are untouched. -/
theorem executeImport_count (db : DB) (parsed : ParsedData)
    (mapping : List (String × String)) (now : String) (cid : String) (y : Int) (m : Nat) :
    (writesBudgetKey parsed mapping cid y m →
      countBudgetKey (executeImport db parsed mapping now).1 cid y m =
        (if countBudgetKey db cid y m = 0 then 1 else countBudgetKey db cid y m)) ∧
    (¬writesBudgetKey parsed mapping cid y m →
      countBudgetKey (executeImport db parsed mapping now).1 cid y m =
        countBudgetKey db cid y m) := by
  have hfst : (executeImport db parsed mapping now).1 =
      (runTemplatePhase parsed.year now (uniqueCategoryIds mapping)
        (runCategoryImports mapping parsed.year (ensure_import_payee db now).1 now
          parsed.sheet_categories (ensure_import_payee db now).2).1).1 := rfl
  have hpe : countBudgetKey (ensure_import_payee db now).2 cid y m =
      countBudgetKey db cid y m :=
    countBudgetKey_of_entries_eq (ensure_import_payee_state db now).1 cid y m
  have htp : countBudgetKey (executeImport db parsed mapping now).1 cid y m =
      countBudgetKey (runCategoryImports mapping parsed.year (ensure_import_payee db now).1
        now parsed.sheet_categories (ensure_import_payee db now).2).1 cid y m := by
    rw [hfst]
    exact countBudgetKey_of_entries_eq (runTemplatePhase_state parsed.year now _ _).1 cid y m
  have hrc := runCategoryImports_count mapping parsed.year (ensure_import_payee db now).1
    now parsed.sheet_categories (ensure_import_payee db now).2 cid y m
  constructor
  · intro hw
    rw [htp, hrc.1 hw, hpe]
  · intro hn
    rw [htp, hrc.2 hn, hpe]

/-- When every key the run writes already has a row, the executor
inserts no budget rows. -/
theorem executeImport_budget_length (db : DB) (parsed : ParsedData)
    (mapping : List (String × String)) (now : String)
    (h : ∀ cat ∈ parsed.sheet_categories, ∀ bm ∈ cat.budget,
        countBudgetKey db ((lookupMapping mapping cat.name).getD "") parsed.year bm.1 ≠ 0) :
    (executeImport db parsed mapping now).1.budget_entries.length =
      db.budget_entries.length := by
  have hfst : (executeImport db parsed mapping now).1 =
      (runTemplatePhase parsed.year now (uniqueCategoryIds mapping)
        (runCategoryImports mapping parsed.year (ensure_import_payee db now).1 now
          parsed.sheet_categories (ensure_import_payee db now).2).1).1 := rfl
  rw [hfst, (runTemplatePhase_state parsed.year now _ _).1]
  rw [runCategoryImports_length mapping parsed.year (ensure_import_payee db now).1 now
    parsed.sheet_categories (ensure_import_payee db now).2 ?_]
  · rw [(ensure_import_payee_state db now).1]
  · intro cat hc bm hbm
    rw [countBudgetKey_of_entries_eq (ensure_import_payee_state db now).1]
    exact h cat hc bm hbm

/-- One executor run appends exactly the bundled actual amounts to the
transaction table. -/
theorem executeImport_trans_length (db : DB) (parsed : ParsedData)
    (mapping : List (String × String)) (now : String) :
    (executeImport db parsed mapping now).1.transactions.length =
      db.transactions.length + totalActuals parsed := by
  have hfst : (executeImport db parsed mapping now).1 =
      (runTemplatePhase parsed.year now (uniqueCategoryIds mapping)
        (runCategoryImports mapping parsed.year (ensure_import_payee db now).1 now
          parsed.sheet_categories (ensure_import_payee db now).2).1).1 := rfl
  rw [hfst, (runTemplatePhase_state parsed.year now _ _).2,
    (runCategoryImports_state mapping parsed.year (ensure_import_payee db now).1 now
      parsed.sheet_categories (ensure_import_payee db now).2).2,
    (ensure_import_payee_state db now).2.2]
  rfl

/-- C6: running the executor twice on identical input leaves exactly one
budget-entry row per written (category, year, month) key — assuming the
store's uniqueness invariant, the second run only updates the rows the
first run wrote, inserting none — but doubles the number of transaction
rows, since every bundled actual amount is inserted as a fresh row each
run. -/
theorem claim_C6 (db : DB) (parsed : ParsedData) (mapping : List (String × String))
    (now1 now2 : String)
    (huniq : ∀ cid y m, countBudgetKey db cid y m ≤ 1) :
    ((executeImport db parsed mapping now1).1.transactions.length =
        db.transactions.length + totalActuals parsed ∧
      (executeImport (executeImport db parsed mapping now1).1 parsed mapping
        now2).1.transactions.length =
        db.transactions.length + 2 * totalActuals parsed) ∧
    (∀ cid y m, writesBudgetKey parsed mapping cid y m →
      countBudgetKey (executeImport (executeImport db parsed mapping now1).1 parsed
        mapping now2).1 cid y m = 1) ∧
    (executeImport (executeImport db parsed mapping now1).1 parsed mapping
        now2).1.budget_entries.length =
      (executeImport db parsed mapping now1).1.budget_entries.length := by
  have hkey1 : ∀ cid y m, writesBudgetKey parsed mapping cid y m →
      countBudgetKey (executeImport db parsed mapping now1).1 cid y m = 1 := by
    intro cid y m hw
    have h1 := (executeImport_count db parsed mapping now1 cid y m).1 hw
    have h2 := huniq cid y m
    rw [h1]
    by_cases hz : countBudgetKey db cid y m = 0
    · simp [hz]
    · rw [if_neg hz]
      omega
  refine ⟨⟨executeImport_trans_length db parsed mapping now1, ?_⟩, ?_, ?_⟩
  · rw [executeImport_trans_length _ parsed mapping now2,
      executeImport_trans_length db parsed mapping now1]
    ring
  · intro cid y m hw
    have h1 := hkey1 cid y m hw
    have h2 := (executeImport_count (executeImport db parsed mapping now1).1 parsed
      mapping now2 cid y m).1 hw
    rw [h2, h1]
    norm_num
  · refine executeImport_budget_length _ parsed mapping now2 ?_
    intro cat hcat bm hbm
    have hw : writesBudgetKey parsed mapping
        ((lookupMapping mapping cat.name).getD "") parsed.year bm.1 :=
      ⟨cat, hcat, bm, hbm, rfl, rfl, rfl⟩
    rw [hkey1 _ _ _ hw]
    norm_num

/-- C6 (witness): the doubling and one-row facts on the demo store. -/
theorem claim_C6_witness :
    (executeImport demoDB demoParsed demoMapping "t1").1.transactions.length =
      demoDB.transactions.length + totalActuals demoParsed ∧
    countBudgetKey (executeImport (executeImport demoDB demoParsed demoMapping "t1").1
      demoParsed demoMapping "t2").1 "c1" 2024 1 = 1 := by
  have huniq : ∀ (cid : String) (y : Int) (m : Nat), countBudgetKey demoDB cid y m ≤ 1 := by
    intro cid y m
    simp [countBudgetKey, demoDB]
  refine ⟨(claim_C6 demoDB demoParsed demoMapping "t1" "t2" huniq).1.1, ?_⟩
  refine (claim_C6 demoDB demoParsed demoMapping "t1" "t2" huniq).2.1 "c1" 2024 1 ?_
  exact ⟨{ name := "Mat", type := "expenses", budget := [(1, 1000)],
           actuals := [(1, [575, 2182])] }, by decide, (1, 1000), by decide,
         by decide, rfl, rfl⟩

end Moneybags
